import Mathlib

/-!
Verification development for the tutor-assignment application.

The definitions below are a shallow embedding of the JavaScript source of
the assignment-matching and batch-workflow engine:

* `extractWords`, `calculateSimilarity` — the text-similarity scorer
  (source: `part_006`, lines 248–321);
* `generateOptimalAssignments` — the capacity-aware greedy matcher
  (source: `part_006`, lines 324–395);
* `sortStudentsByStatusAndClassYear`, `handleDragEnd`,
  `handleAcceptAssignment`, `handleRejectAssignment` — the assignment-state
  operations of the drag-and-drop board (source: `part_006`, lines 742–772
  and 1340–1627);
* `processWorkflow` — the commit sequence of the batch workflow
  (source: `Step7Confirmation.js`, lines 25–136).

Modelling conventions:

* JavaScript numbers used as integer scores are modelled as `ℤ`, and the
  intermediate floating-point similarity arithmetic as exact `ℚ`
  (the scores appearing here are small fractions, where IEEE doubles and
  exact rationals round identically via `Math.round x = ⌊x + 1/2⌋`).
* JavaScript plain objects used as dictionaries are modelled as
  association lists (`List (κ × α)`) in insertion order, with
  `objGet? / objGetD / objSet` mirroring property read / write;
  `Object.entries` is the list itself and `Object.keys` is `map Prod.fst`.
* `Array.prototype.sort` (stable in modern engines) is modelled by the
  stable `List.insertionSort` on the same comparator.
* Missing/`undefined` free-text fields are modelled as `""` (the source
  guards every such read with `|| ''`).
-/

namespace TutorApp

/-- A student record.  Only the fields read by the embedded code are kept:
the stable row identity, the application status and class year (used by the
board's sorting), the NRT-assignment string and the three free-text profile
fields read by the similarity scorer. -/
structure Student where
  row_index : Nat
  status : String := ""
  class_year : String := ""
  nrt_assignment : String := ""
  medical_interests : String := ""
  research_activities : String := ""
  extracurricular_activities : String := ""
deriving DecidableEq, Repr

/-- A non-resident tutor (NRT) record with the fields read by the embedded
code: row identity, name, email, eligibility status and the three free-text
profile fields read by the similarity scorer. -/
structure NRT where
  row_index : Nat := 0
  name : String := ""
  email : String := ""
  status : String := ""
  medical_interests : String := ""
  interested_in_research : String := ""
  interests_outside_medicine : String := ""
deriving DecidableEq, Repr

/-! ### JavaScript object / dictionary model -/

/-- Property read on a JS object modelled as an association list:
the value at the first entry whose key matches. -/
def objGet? {κ α : Type} [BEq κ] (m : List (κ × α)) (k : κ) : Option α :=
  (m.find? (fun e => e.1 == k)).map (·.2)

/-- Property read with a default (models `obj[k] || d` / `obj[k] ?? d`). -/
def objGetD {κ α : Type} [BEq κ] (m : List (κ × α)) (k : κ) (d : α) : α :=
  (objGet? m k).getD d

/-- Property write on a JS object: replace the value at the existing key
(keeping its position) or append a new entry. -/
def objSet {κ α : Type} [BEq κ] (m : List (κ × α)) (k : κ) (v : α) :
    List (κ × α) :=
  match m with
  | [] => [(k, v)]
  | e :: rest => if e.1 == k then (k, v) :: rest else e :: objSet rest k v

/-! ### Text similarity scorer (`part_006` lines 248–321) -/

/-- The stop-word list of `extractWords`, verbatim from the source
(duplicates included; only membership matters). -/
def stopWords : List String :=
  ["and", "the", "of", "to", "a", "an", "in", "on", "at", "for", "with", "by",
   "from", "as", "is", "are", "was", "were", "be", "been", "being", "have", "has", "had",
   "do", "does", "did", "will", "would", "could", "should", "may", "might", "must",
   "can", "this", "that", "these", "those", "i", "you", "he", "she", "it", "we", "they",
   "me", "him", "her", "us", "them", "my", "your", "his", "her", "its", "our", "their",
   "what", "which", "who", "whom", "whose", "where", "when", "why", "how",
   "all", "each", "every", "both", "few", "more", "most", "other", "some", "such",
   "no", "nor", "not", "only", "own", "same", "so", "than", "too", "very",
   "interested", "interest", "interests", "interested in", "about", "into", "through",
   "during", "before", "after", "above", "below", "up", "down", "out", "off", "over", "under",
   "again", "further", "then", "once", "here", "there", "when", "where", "why", "how",
   "all", "any", "both", "each", "few", "more", "most", "other", "some", "such",
   "no", "nor", "not", "only", "own", "same", "so", "than", "too", "very",
   "s", "t", "can", "will", "just", "don", "should", "now"]

/-- A JS `\w` word character: ASCII letter, digit or underscore. -/
def isWordChar (c : Char) : Bool :=
  c.isAlphanum || c == '_'

/-- Split a character list on whitespace, returning the maximal non-empty
runs of non-whitespace characters (the words `text.split(/\s+/)` yields,
up to empty fragments that the length filter of `extractWords` discards
anyway).  `acc` is the current word accumulated in reverse. -/
def splitWsAux : List Char → List Char → List (List Char)
  | [], acc => if acc.isEmpty then [] else [acc.reverse]
  | c :: cs, acc =>
    if c.isWhitespace then
      if acc.isEmpty then splitWsAux cs [] else acc.reverse :: splitWsAux cs []
    else splitWsAux cs (c :: acc)

/-- The embedded `extractWords`: lowercase, replace every non-word non-space character by
a space, split on whitespace, keep words longer than 2 characters that are
not stop words.  Note that the result is a *list*: repeated words in the
input yield repeated entries. -/
def extractWords (text : String) : List String :=
  let cleaned := text.data.map (fun c =>
    let lc := c.toLower
    if isWordChar lc || lc.isWhitespace then lc else ' ')
  ((splitWsAux cleaned []).map (fun w => String.mk w)).filter
    (fun w => decide (2 < w.length) && !(stopWords.contains w))

/-- The result record of `calculateSimilarity`.  The JS `matchingKeywords`
object is flattened into the three `matching*` fields. -/
structure Similarity where
  score : ℤ
  medicalScore : ℤ
  researchScore : ℤ
  hobbyScore : ℤ
  matchingMedical : List String := []
  matchingResearch : List String := []
  matchingHobbies : List String := []
deriving DecidableEq, Repr

/-- The embedded `calculateSimilarity` (`part_006` lines 276–321): per-category overlap
scores between one student and one NRT profile.  `Math.round` is `round`
on exact rationals (`Math.round x = ⌊x + 1/2⌋` for the values arising
here).  The JS `new Set([...a, ...b]).size` is `((a ++ b).dedup).length`. -/
def calculateSimilarity (student : Student) (nrt : NRT) : Similarity :=
  let studentMedical := extractWords student.medical_interests
  let nrtMedical := extractWords nrt.medical_interests
  let studentResearch := extractWords student.research_activities
  let nrtResearch := extractWords nrt.interested_in_research
  let studentHobbies := extractWords student.extracurricular_activities
  let nrtHobbies := extractWords nrt.interests_outside_medicine
  let medicalMatches := studentMedical.filter (fun w => nrtMedical.contains w)
  let researchMatches := studentResearch.filter (fun w => nrtResearch.contains w)
  let hobbyMatches := studentHobbies.filter (fun w => nrtHobbies.contains w)
  let totalMedicalWords := ((studentMedical ++ nrtMedical).dedup).length
  let totalResearchWords := ((studentResearch ++ nrtResearch).dedup).length
  let totalHobbyWords := ((studentHobbies ++ nrtHobbies).dedup).length
  let medicalScore : ℚ :=
    if 0 < totalMedicalWords then
      ((medicalMatches.length : ℚ) / (totalMedicalWords : ℚ)) * 100
    else 0
  let researchScore : ℚ :=
    if 0 < totalResearchWords then
      ((researchMatches.length : ℚ) / (totalResearchWords : ℚ)) * 100
    else 0
  let hobbyScore : ℚ :=
    if 0 < totalHobbyWords then
      ((hobbyMatches.length : ℚ) / (totalHobbyWords : ℚ)) * 100
    else 0
  let totalScore : ℚ :=
    medicalScore * (0.4 : ℚ) + researchScore * (0.4 : ℚ) + hobbyScore * (0.2 : ℚ)
  { score := round totalScore
    medicalScore := round medicalScore
    researchScore := round researchScore
    hobbyScore := round hobbyScore
    matchingMedical := medicalMatches
    matchingResearch := researchMatches
    matchingHobbies := hobbyMatches }

/-! ### Capacity-aware matcher (`part_006` lines 324–395) -/

/-- One element of the `scores` array built by `generateOptimalAssignments`
(`remainingCapacity` is computed and stored by the source but never read
afterwards). -/
structure ScoreEntry where
  student : Student
  nrt : NRT
  similarity : Similarity
  remainingCapacity : Nat
deriving Repr

/-- One accepted suggestion pair. -/
structure Assignment where
  student : Student
  nrt : NRT
  similarity : Similarity
deriving DecidableEq, Repr

/-- The accumulator of the greedy pass of `generateOptimalAssignments`:
accepted pairs, the `assignedStudents` set (as a list of row indices), and
the running per-tutor counter object `nrtCounts`. -/
abbrev GreedyAcc := List Assignment × List Nat × List (String × Nat)

/-- The body of the greedy `scores.forEach` loop of
`generateOptimalAssignments`: skip an entry whose student is already
assigned in this pass or whose tutor counter has reached 3; otherwise
accept the pair and bump the tutor counter. -/
def greedyStep (acc : GreedyAcc) (entry : ScoreEntry) : GreedyAcc :=
  if acc.2.1.contains entry.student.row_index then acc
  else if 3 ≤ objGetD acc.2.2 entry.nrt.email 0 then acc
  else
    (acc.1 ++ [{ student := entry.student, nrt := entry.nrt,
                 similarity := entry.similarity : Assignment }],
     entry.student.row_index :: acc.2.1,
     objSet acc.2.2 entry.nrt.email (objGetD acc.2.2 entry.nrt.email 0 + 1))

/-- The embedded `generateOptimalAssignments`: filter eligible NRTs, score the full
cross product, sort by descending overall score (stable), greedily accept
pairs under the per-tutor running capacity counter seeded from
`currentAssignments`, and re-sort the accepted pairs by original student
order. -/
def generateOptimalAssignments (students : List Student) (nrts : List NRT)
    (currentAssignments : List (String × List Student)) : List Assignment :=
  let availableNrts := nrts.filter (fun nrt =>
    let isActive := nrt.status == "active"
    let isAccepting := nrt.status != "leaving, but keeping students" &&
      nrt.status != "active, but does not want additional students" &&
      nrt.status != "pending approval"
    if !(isActive && isAccepting) then false
    else decide ((objGetD currentAssignments nrt.email []).length < 3))
  if availableNrts.length == 0 || students.length == 0 then []
  else
    let scores := students.flatMap (fun student =>
      availableNrts.map (fun nrt =>
        let similarity := calculateSimilarity student nrt
        let currentCount := (objGetD currentAssignments nrt.email []).length
        { student := student, nrt := nrt, similarity := similarity
          remainingCapacity := 3 - currentCount : ScoreEntry }))
    let sortedScores :=
      List.insertionSort (fun a b => b.similarity.score ≤ a.similarity.score) scores
    let nrtCounts := availableNrts.foldl (fun m nrt =>
      objSet m nrt.email (objGetD currentAssignments nrt.email []).length)
      ([] : List (String × Nat))
    let final := sortedScores.foldl greedyStep
      (([] : List Assignment), ([] : List Nat), nrtCounts)
    let assignments := final.1
    let studentOrder := (students.enum).foldl (fun m p =>
      objSet m p.2.row_index p.1) ([] : List (Nat × Nat))
    List.insertionSort (fun a b =>
      objGetD studentOrder a.student.row_index 0 ≤
        objGetD studentOrder b.student.row_index 0) assignments

/-! ### Assignment-state operations of the drag-and-drop board
(`part_006` lines 742–772, 1340–1627)

The board's React component state is modelled by `AssignState`:
the unassigned pool `students`, the per-tutor new-assignment buckets
`assignments`, the per-tutor current-assignment buckets
`currentAssignments` (both JS objects keyed by tutor email), and the
suggestion list `tentativeAssignments`.

Drag-and-drop identifiers (`active.id` / `over.id`) mix student row
indices (numbers) and tutor emails or the string `'unassigned'`; they are
modelled by the disjoint sum `OverId`, which is faithful because a JS
number (`row_index`) never compares equal to a string (email or
`'unassigned'`). -/

/-- A drop target (`over.id`): the unassigned zone container, a student
card (identified by the student's row index), or a tutor drop zone
(identified by the tutor's email). -/
inductive OverId where
  | pool : OverId
  | card (sid : Nat) : OverId
  | tutor (email : String) : OverId
deriving DecidableEq, Repr

/-- Where the dragged student was found (`sourceType` in the source:
`'unassigned'`, a tutor email, or `'current_' + email`). -/
inductive SourceType where
  | unassigned : SourceType
  | newBucket (email : String) : SourceType
  | curBucket (email : String) : SourceType
deriving DecidableEq, Repr

/-- The two rejection alerts of `handleDragEnd`: the tutor is not
accepting new students, or the tutor is at the 3-student capacity. -/
inductive MoveError where
  | ineligible : MoveError
  | capacity : MoveError
deriving DecidableEq, Repr

/-- The component state of the assignment board. -/
structure AssignState where
  students : List Student
  assignments : List (String × List Student)
  currentAssignments : List (String × List Student)
  tentativeAssignments : List Assignment := []
deriving DecidableEq, Repr

/-- Scan the bucket object in entry order for the first bucket containing
the dragged row index, returning that bucket's email, its contents, and
the found student (models the `for (const [email, list] of
Object.entries(...))` search loops). -/
def findBucket (m : List (String × List Student)) (aid : Nat) :
    Option (String × List Student × Student) :=
  m.findSome? (fun b =>
    (b.2.find? (fun s => s.row_index == aid)).map (fun s => (b.1, b.2, s)))

/-- JS `parseInt` in base 10: skip leading whitespace, optional sign,
then a non-empty run of digits; `none` models `NaN`. -/
def jsParseInt (str : String) : Option Int :=
  let cs := str.data.dropWhile (·.isWhitespace)
  let signed : Int × List Char :=
    match cs with
    | '-' :: rest => (-1, rest)
    | '+' :: rest => (1, rest)
    | _ => (1, cs)
  let ds := signed.2.takeWhile (·.isDigit)
  if ds.isEmpty then none
  else some (signed.1 *
    (ds.foldl (fun n c => n * 10 + (c.toNat - '0'.toNat)) 0 : Nat))

/-- The comparator of `sortStudentsByStatusAndClassYear`: status priority
(`Applying Next Cycle` < `Not Applying` < `Currently Applying`, unknown or
empty status counting as `Not Applying`), then class year (oldest first)
among `Not Applying` students.  A `NaN` year comparison (non-numeric
`class_year`) is treated as equal, as engines treat a `NaN` comparator
result as `0`. -/
def studentCmp (a b : Student) : Int :=
  let aStatus := if a.status == "" then "Not Applying" else a.status
  let bStatus := if b.status == "" then "Not Applying" else b.status
  let prio := fun (s : String) =>
    if s == "Applying Next Cycle" then (1 : Int)
    else if s == "Not Applying" then 2
    else if s == "Currently Applying" then 3
    else 2
  let aPriority := prio aStatus
  let bPriority := prio bStatus
  if aPriority ≠ bPriority then aPriority - bPriority
  else if aStatus == "Not Applying" && bStatus == "Not Applying" then
    let aYear := if a.class_year == "" then some (9999 : Int)
                 else jsParseInt a.class_year
    let bYear := if b.class_year == "" then some (9999 : Int)
                 else jsParseInt b.class_year
    match aYear, bYear with
    | some x, some y => x - y
    | _, _ => 0
  else 0

/-- The embedded `sortStudentsByStatusAndClassYear`: the stable sort of the pool by
`studentCmp` (JS `Array.prototype.sort` is stable; `insertionSort` is the
stable sort on the same comparator). -/
def sortStudentsByStatusAndClassYear (students : List Student) : List Student :=
  List.insertionSort (fun a b => studentCmp a b ≤ 0) students

/-- The "remove from any other assignments" loops of `handleDragEnd`:
filter the dragged row index out of every bucket except the target
tutor's. -/
def pruneOthers (m : List (String × List Student)) (nrtEmail : String)
    (activeId : Nat) : List (String × List Student) :=
  m.map (fun (b : String × List Student) =>
    if b.1 == nrtEmail then b
    else (b.1, b.2.filter (fun (s : Student) => !(s.row_index == activeId))))

/-- Remove, inside the first drop branch of `handleDragEnd`, the dragged
student from the bucket it was found in and re-insert the student into the
(re-sorted) unassigned pool at `insertIndex`.  `insertIndex` never exceeds
the pool length in the source (`indexOf` of a present id, or a
`Math.min`-clamped pixel position); the `min` mirrors that clamp. -/
def moveOutOfBucket (pool : List Student) (found : Student)
    (insertIndex : Nat) : List Student :=
  let sortedCurrent := sortStudentsByStatusAndClassYear pool
  List.insertIdx (min insertIndex sortedCurrent.length) found sortedCurrent

/-- The insert position used by the unassigned-drop branch: the index of
the target student card when dropping onto a card in the pool, otherwise
the geometry-derived index `dropIndex` (computed in the source from the
mouse Y coordinate; an arbitrary `Nat` parameter here — it is clamped to
the pool length on insertion and never affects membership). -/
def unassignedInsertIndex (pool : List Student) (ov : OverId)
    (dropIndex : Nat) : Nat :=
  let sortedIds := (sortStudentsByStatusAndClassYear pool).map (·.row_index)
  match ov with
  | OverId.card sid =>
    if sortedIds.contains sid then sortedIds.indexOf sid else dropIndex
  | _ => dropIndex

/-- The tail of the tutor-drop branch of `handleDragEnd`, applied after
the dragged student has been removed from its source bucket: remove the
row index from every other bucket, then append the student to the target
tutor's new-assignment bucket unless already present (the source's
"remove from any other assignments" loops and final idempotent push). -/
def tutorFinalize (st1 : AssignState) (nrtEmail : String) (activeId : Nat)
    (student : Student) : AssignState :=
  let st2 := { st1 with
    assignments := pruneOthers st1.assignments nrtEmail activeId,
    currentAssignments := pruneOthers st1.currentAssignments nrtEmail activeId }
  let bucket := objGetD st2.assignments nrtEmail []
  let finalBucket :=
    if bucket.any (fun (s : Student) => s.row_index == activeId) then bucket
    else bucket ++ [student]
  { st2 with assignments := objSet st2.assignments nrtEmail finalBucket }

/-- The source-resolution sequence of the tutor-drop branch of
`handleDragEnd`: look for the dragged row index in the unassigned pool,
then in the new-assignment buckets, then in the current-assignment
buckets. -/
def findSource (st : AssignState) (activeId : Nat) :
    Option (SourceType × Student) :=
  match st.students.find? (fun (s : Student) => s.row_index == activeId) with
  | some s => some (SourceType.unassigned, s)
  | none =>
    match findBucket st.assignments activeId with
    | some (email, _, s) => some (SourceType.newBucket email, s)
    | none =>
      match findBucket st.currentAssignments activeId with
      | some (email, _, s) => some (SourceType.curBucket email, s)
      | none => none

/-- The embedded `handleDragEnd` (`part_006` lines 1340–1530).  First branch: dropping
onto the unassigned zone (or a student card in the pool) moves the dragged
student out of its new- or current-assignment bucket back into the pool.
Second branch: dropping onto a tutor zone checks eligibility and capacity,
then removes the student from its source bucket, removes it from every
other bucket, and appends it to the tutor's new-assignment bucket.
Returns the alert (if any) together with the next state; an alert or an
early `return` leaves the state unchanged.  `dropIndex` stands for the
pixel-derived insert position of the unassigned zone. -/
def handleDragEnd (nrts : List NRT) (st : AssignState) (over : Option OverId)
    (activeId : Nat) (dropIndex : Nat) : Option MoveError × AssignState :=
  match over with
  | none => (none, st)
  | some ov =>
    let isUnassignedDrop :=
      match ov with
      | OverId.pool => true
      | OverId.card sid => (st.students.find? (fun (s : Student) => s.row_index == sid)).isSome
      | OverId.tutor _ => false
    if isUnassignedDrop then
      match findBucket st.assignments activeId with
      | some (email, bucket, foundStudent) =>
        (none, { st with
          assignments := objSet st.assignments email
            (bucket.filter (fun (s : Student) => !(s.row_index == activeId))),
          students := moveOutOfBucket st.students foundStudent
            (unassignedInsertIndex st.students ov dropIndex) })
      | none =>
        match findBucket st.currentAssignments activeId with
        | some (email, bucket, foundStudent) =>
          (none, { st with
            currentAssignments := objSet st.currentAssignments email
              (bucket.filter (fun (s : Student) => !(s.row_index == activeId))),
            students := moveOutOfBucket st.students foundStudent
              (unassignedInsertIndex st.students ov dropIndex) })
        | none => (none, st)
    else
      match ov with
      | OverId.tutor nrtEmail =>
        match findSource st activeId with
        | none => (none, st)
        | some (src, student) =>
          match nrts.find? (fun (n : NRT) => n.email == nrtEmail) with
          | none => (none, st)
          | some nrt =>
            let totalCurrent := (objGetD st.currentAssignments nrtEmail []).length
            let totalNew := (objGetD st.assignments nrtEmail []).length
            let alreadyInTarget := (objGetD st.assignments nrtEmail []).any
              (fun (s : Student) => s.row_index == activeId)
            let totalAfter := totalCurrent + totalNew +
              (if src == SourceType.unassigned || !alreadyInTarget then 1 else 0)
            if nrt.status != "active" ||
                nrt.status == "leaving, but keeping students" ||
                nrt.status == "active, but does not want additional students" ||
                nrt.status == "pending approval" then
              (some MoveError.ineligible, st)
            else if 3 < totalAfter then
              (some MoveError.capacity, st)
            else
              let st1 :=
                match src with
                | SourceType.unassigned =>
                  { st with students :=
                      st.students.filter (fun (s : Student) => !(s.row_index == activeId)) }
                | SourceType.curBucket srcEmail =>
                  { st with currentAssignments :=
                      (objSet st.currentAssignments srcEmail
                        ((objGetD st.currentAssignments srcEmail []).filter
                          (fun (s : Student) => !(s.row_index == activeId)))) }
                | SourceType.newBucket srcEmail =>
                  { st with assignments :=
                      (objSet st.assignments srcEmail
                        ((objGetD st.assignments srcEmail []).filter
                          (fun (s : Student) => !(s.row_index == activeId)))) }
              (none, tutorFinalize st1 nrtEmail activeId student)
      | _ => (none, st)

/-- The embedded `handleAcceptAssignment` (`part_006` lines 1593–1616): append the
suggested pair's student to the tutor's new-assignment bucket, remove the
student from the unassigned pool, and remove the pair from the suggestion
list.  No eligibility or capacity check is performed. -/
def handleAcceptAssignment (st : AssignState) (assignment : Assignment) :
    AssignState :=
  { st with
    assignments := objSet st.assignments assignment.nrt.email
      (objGetD st.assignments assignment.nrt.email [] ++ [assignment.student]),
    students := st.students.filter
      (fun s => !(s.row_index == assignment.student.row_index)),
    tentativeAssignments := st.tentativeAssignments.filter (fun a =>
      !(a.student.row_index == assignment.student.row_index) ||
      !(a.nrt.email == assignment.nrt.email)) }

/-- The embedded `handleRejectAssignment` (`part_006` lines 1618–1627): remove the pair
from the suggestion list; the student stays where it is. -/
def handleRejectAssignment (st : AssignState) (assignment : Assignment) :
    AssignState :=
  { st with
    tentativeAssignments := st.tentativeAssignments.filter (fun a =>
      !(a.student.row_index == assignment.student.row_index) ||
      !(a.nrt.email == assignment.nrt.email)) }

/-- The embedded `handleSuggestAssignments` (`part_006` lines 1587–1591): regenerate
the suggestion list from the current pool and buckets. -/
def handleSuggestAssignments (st : AssignState) (allNrts : List NRT) :
    AssignState :=
  { st with tentativeAssignments :=
      generateOptimalAssignments st.students allNrts st.currentAssignments }

/-! ### Location accounting for the one-bucket invariant -/

/-- Number of occurrences of the row index `id` in a student list. -/
def rowCount (l : List Student) (id : Nat) : Nat :=
  l.countP (fun s => s.row_index == id)

/-- Number of occurrences of the row index `id` across all buckets of a
bucket object. -/
def bucketsCount (m : List (String × List Student)) (id : Nat) : Nat :=
  (m.map (fun b => rowCount b.2 id)).sum

/-- Total number of locations of the row index `id` in a board state:
pool occurrences plus new-assignment plus current-assignment bucket
occurrences. -/
def locCount (st : AssignState) (id : Nat) : Nat :=
  rowCount st.students id + bucketsCount st.assignments id +
    bucketsCount st.currentAssignments id

/-- All row indices of a state in location order (pool, then
new-assignment buckets, then current-assignment buckets), with
multiplicity. -/
def allRows (st : AssignState) : List Nat :=
  st.students.map (·.row_index) ++
    st.assignments.flatMap (fun b => b.2.map (·.row_index)) ++
    st.currentAssignments.flatMap (fun b => b.2.map (·.row_index))

/-- Well-formedness of the JS bucket objects: no duplicate keys
(JS object keys are unique by construction). -/
def BucketsWF (st : AssignState) : Prop :=
  (st.assignments.map Prod.fst).Nodup ∧
    (st.currentAssignments.map Prod.fst).Nodup

/-! ### Batch workflow commit (`Step7Confirmation.js` lines 25–136) -/

/-- One staged NRT status change (`workflowData.updatedNRTs` entries carry
a row identity and a target status, where the status `"DELETE"` is the
deletion sentinel). -/
structure NRTUpdate where
  row_index : Nat
  status : String
deriving DecidableEq, Repr

/-- The staged workflow batch (`workflowData`).  The two assignment maps
are JS objects keyed by student row index (`Object.entries` order); the
source recovers the numeric key with `parseInt`, modelled by keying the
association list with `Nat` directly. -/
structure WorkflowData where
  deletedStudents : List Student := []
  newStudents : List Student := []
  deletedNRTs : List NRT := []
  updatedNRTs : List NRTUpdate := []
  newNRTs : List NRT := []
  rtAssignments : List (Nat × String) := []
  nrtAssignments : List (Nat × String) := []
deriving Repr

/-- A persistence-collaborator call issued by the commit sequence. -/
inductive ApiCall where
  | deleteStudent (id : Nat) : ApiCall
  | bulkAddStudents (n : Nat) : ApiCall
  | deleteNRT (id : Nat) : ApiCall
  | getAllNRTs : ApiCall
  | updateNRT (id : Nat) : ApiCall
  | bulkAddNRTs (n : Nat) : ApiCall
  | assignRT (id : Nat) (email : String) : ApiCall
  | assignNRT (id : Nat) (email : String) : ApiCall
  | syncToSheets : ApiCall
deriving DecidableEq, Repr

/-- Result of an assignment call: success, a 404 student-not-found
response (caught and skipped by the source), or any other error
(re-thrown, aborting the commit). -/
inductive CallResult where
  | ok : CallResult
  | notFound : CallResult
  | failed : CallResult
deriving DecidableEq, Repr

/-- The persistence collaborator's responses, one field per endpoint.
A `false`/`failed` response models a rejected promise. -/
structure Collaborator where
  deleteStudentOk : Nat → Bool := fun _ => true
  bulkAddStudentsOk : Bool := true
  deleteNRTOk : Nat → Bool := fun _ => true
  getAllOk : Bool := true
  allNRTs : List NRT := []
  updateNRTOk : Nat → Bool := fun _ => true
  bulkAddNRTsOk : Bool := true
  assignRTResult : Nat → String → CallResult := fun _ _ => CallResult.ok
  assignNRTResult : Nat → String → CallResult := fun _ _ => CallResult.ok

/-- Step 1 (and step 3, instantiated at NRTs): sequential per-item
deletions inside the commit's single `try` block.  There is no per-item
catch: the first rejected delete aborts with the calls issued so far. -/
def runDeletes (ok : Nat → Bool) (mk : Nat → ApiCall) :
    List Nat → List ApiCall × Bool
  | [] => ([], true)
  | id :: rest =>
    if ok id then
      let r := runDeletes ok mk rest
      (mk id :: r.1, r.2)
    else ([mk id], false)

/-- Step 4: per staged status change, re-fetch the NRT list, find the
record; if found, delete it when the target status is the `"DELETE"`
sentinel, otherwise update it.  Unhandled rejections abort. -/
def runNRTUpdates (c : Collaborator) : List NRTUpdate → List ApiCall × Bool
  | [] => ([], true)
  | u :: rest =>
    if !c.getAllOk then ([ApiCall.getAllNRTs], false)
    else
      match c.allNRTs.find? (fun n => n.row_index == u.row_index) with
      | none =>
        let r := runNRTUpdates c rest
        (ApiCall.getAllNRTs :: r.1, r.2)
      | some _ =>
        if u.status == "DELETE" then
          if c.deleteNRTOk u.row_index then
            let r := runNRTUpdates c rest
            (ApiCall.getAllNRTs :: ApiCall.deleteNRT u.row_index :: r.1, r.2)
          else ([ApiCall.getAllNRTs, ApiCall.deleteNRT u.row_index], false)
        else
          if c.updateNRTOk u.row_index then
            let r := runNRTUpdates c rest
            (ApiCall.getAllNRTs :: ApiCall.updateNRT u.row_index :: r.1, r.2)
          else ([ApiCall.getAllNRTs, ApiCall.updateNRT u.row_index], false)

/-- Steps 6 and 7: per staged assignment, skip (log only) when the student
row index is in the deletion set; otherwise issue the call, treating a 404
as a skippable warning and any other error as fatal. -/
def runAssigns (result : Nat → String → CallResult) (mk : Nat → String → ApiCall)
    (deleted : List Nat) : List (Nat × String) → List ApiCall × Bool
  | [] => ([], true)
  | (id, email) :: rest =>
    if deleted.contains id then runAssigns result mk deleted rest
    else
      match result id email with
      | CallResult.failed => ([mk id email], false)
      | _ =>
        let r := runAssigns result mk deleted rest
        (mk id email :: r.1, r.2)

/-- Sequential composition of two commit steps inside the single `try`
block: if the first step failed, the second never runs. -/
def seqSteps (a : List ApiCall × Bool) (b : List ApiCall × Bool) :
    List ApiCall × Bool :=
  if a.2 then (a.1 ++ b.1, b.2) else a

/-- The embedded `processWorkflow` (`Step7Confirmation.js` lines 25–136): the eight
commit steps run sequentially in one `try` block; the result is the list
of collaborator calls issued, in order, and whether the commit finished
(an uncaught rejection jumps to the `catch` and aborts the rest).  The
final sheet export failure is caught locally and never fails the commit. -/
def processWorkflow (wd : WorkflowData) (c : Collaborator) :
    List ApiCall × Bool :=
  let s1 := runDeletes c.deleteStudentOk ApiCall.deleteStudent
    (wd.deletedStudents.map (·.row_index))
  let s2 := if 0 < wd.newStudents.length then
      ([ApiCall.bulkAddStudents wd.newStudents.length], c.bulkAddStudentsOk)
    else ([], true)
  let s3 := runDeletes c.deleteNRTOk ApiCall.deleteNRT
    (wd.deletedNRTs.map (·.row_index))
  let s4 := runNRTUpdates c wd.updatedNRTs
  let s5 := if 0 < wd.newNRTs.length then
      ([ApiCall.bulkAddNRTs wd.newNRTs.length], c.bulkAddNRTsOk)
    else ([], true)
  let deletedStudentRowIndices := wd.deletedStudents.map (·.row_index)
  let s6 := runAssigns c.assignRTResult ApiCall.assignRT
    deletedStudentRowIndices wd.rtAssignments
  let s7 := runAssigns c.assignNRTResult ApiCall.assignNRT
    deletedStudentRowIndices wd.nrtAssignments
  let hasChanges :=
    0 < wd.deletedStudents.length || 0 < wd.newStudents.length ||
    0 < wd.deletedNRTs.length || 0 < wd.updatedNRTs.length ||
    0 < wd.newNRTs.length || 0 < wd.rtAssignments.length ||
    0 < wd.nrtAssignments.length
  let s8 := if hasChanges then ([ApiCall.syncToSheets], true) else ([], true)
  seqSteps s1 (seqSteps s2 (seqSteps s3 (seqSteps s4
    (seqSteps s5 (seqSteps s6 (seqSteps s7 s8))))))

/-! ### Abbreviations used in specification statements -/

/-- The rational category score of `calculateSimilarity` for a pair of
extracted word lists, before rounding: the match count over the union
size, scaled to 100, or `0` when the union is empty. -/
def catScoreQ (s t : List String) : ℚ :=
  if 0 < ((s ++ t).dedup).length then
    (((s.filter (fun w => t.contains w)).length : ℚ) /
      ((((s ++ t).dedup).length : Nat) : ℚ)) * 100
  else 0

/-- The student profile swap of the similarity symmetry property: give the
student the tutor's three scored texts. -/
def swapStudent (student : Student) (nrt : NRT) : Student :=
  { student with
    medical_interests := nrt.medical_interests
    research_activities := nrt.interested_in_research
    extracurricular_activities := nrt.interests_outside_medicine }

/-- The tutor profile swap of the similarity symmetry property: give the
tutor the student's three scored texts. -/
def swapNRT (student : Student) (nrt : NRT) : NRT :=
  { nrt with
    medical_interests := student.medical_interests
    interested_in_research := student.research_activities
    interests_outside_medicine := student.extracurricular_activities }

/-! ### Concrete inputs used by counterexamples and witnesses -/

/-- Student whose medical-interests text repeats a significant word. -/
def dupStudent : Student :=
  { row_index := 1, medical_interests := "health health policy" }

/-- Tutor sharing both significant words with `dupStudent`. -/
def dupNRT : NRT :=
  { email := "t@x.com", medical_interests := "health policy" }

/-- Student for the symmetry counterexample. -/
def symStudent : Student :=
  { row_index := 1, medical_interests := "health health" }

/-- Tutor for the symmetry counterexample. -/
def symNRT : NRT :=
  { email := "t@x.com", medical_interests := "health" }

/-- Student with duplicate-free extracted term lists, used to instantiate
the corrected similarity properties. -/
def plainStudent : Student :=
  { row_index := 1, medical_interests := "cardiology imaging" }

/-- Tutor with duplicate-free extracted term lists. -/
def plainNRT : NRT :=
  { email := "t@x.com", status := "active",
    medical_interests := "cardiology clinics" }

/-- The student of the end-to-end scenario of the specification. -/
def scenarioStudent : Student :=
  { row_index := 1, medical_interests := "global health policy" }

/-- The tutor of the end-to-end scenario of the specification. -/
def scenarioNRT : NRT :=
  { name := "Dr. A", email := "a@x.com", status := "active",
    medical_interests := "global health and policy work" }

/-- Board state used by the invariant-preservation witness: two pooled
students, one new assignment and one current assignment. -/
def boardState : AssignState :=
  { students := [{ row_index := 1 }, { row_index := 2 }],
    assignments := [("t1@x.com", [{ row_index := 3 }])],
    currentAssignments := [("t1@x.com", [{ row_index := 4 }]),
                           ("t2@x.com", [])] }

/-- An active tutor used by board witnesses. -/
def activeNRT : NRT :=
  { name := "T One", email := "t1@x.com", status := "active" }

/-- A pending-approval tutor used by the accept/reject counterexample. -/
def pendingNRT : NRT :=
  { name := "T Pending", email := "tp@x.com", status := "pending approval" }

/-- Board state at capacity: tutor `t1@x.com` has two current students
and one new student (row 5), total 3/3; student 6 sits in the pool. -/
def capacityState : AssignState :=
  { students := [{ row_index := 6 }],
    assignments := [("t1@x.com", [{ row_index := 5 }])],
    currentAssignments := [("t1@x.com", [{ row_index := 3 }, { row_index := 4 }])] }

/-- Board state whose pending tutor has an empty bucket; used to compare a
manual move against accepting a suggestion for the same pair. -/
def pendingState : AssignState :=
  { students := [{ row_index := 1 }],
    assignments := [],
    currentAssignments := [] }

/-- A suggestion pair for `pendingState`: pool student 1 paired with the
pending-approval tutor. -/
def pendingPair : Assignment :=
  { student := { row_index := 1 }, nrt := pendingNRT,
    similarity := { score := 0, medicalScore := 0, researchScore := 0,
                    hobbyScore := 0 } }

/-- Workflow batch staging two student deletions (rows 1 and 2). -/
def twoDeleteBatch : WorkflowData :=
  { deletedStudents := [{ row_index := 1 }, { row_index := 2 }] }

/-- Collaborator that rejects the deletion of student row 1 and accepts
everything else. -/
def failFirstCollab : Collaborator :=
  { deleteStudentOk := fun id => !(id == 1) }

/-- Workflow batch that deletes student row 1 and also stages RT and NRT
assignments for rows 1 and 2. -/
def deleteAndAssignBatch : WorkflowData :=
  { deletedStudents := [{ row_index := 1 }],
    rtAssignments := [(1, "rt@x.com"), (2, "rt@x.com")],
    nrtAssignments := [(1, "t1@x.com")] }

/-- A collaborator answering every call successfully. -/
def okCollab : Collaborator := {}

/-!
## Proofs

### Scorer lemmas
-/

theorem medicalScore_eq (student : Student) (nrt : NRT) :
    (calculateSimilarity student nrt).medicalScore
      = round (catScoreQ (extractWords student.medical_interests)
          (extractWords nrt.medical_interests)) := rfl

theorem researchScore_eq (student : Student) (nrt : NRT) :
    (calculateSimilarity student nrt).researchScore
      = round (catScoreQ (extractWords student.research_activities)
          (extractWords nrt.interested_in_research)) := rfl

theorem hobbyScore_eq (student : Student) (nrt : NRT) :
    (calculateSimilarity student nrt).hobbyScore
      = round (catScoreQ (extractWords student.extracurricular_activities)
          (extractWords nrt.interests_outside_medicine)) := rfl

theorem score_eq (student : Student) (nrt : NRT) :
    (calculateSimilarity student nrt).score
      = round (catScoreQ (extractWords student.medical_interests)
            (extractWords nrt.medical_interests) * (0.4 : ℚ) +
          catScoreQ (extractWords student.research_activities)
            (extractWords nrt.interested_in_research) * (0.4 : ℚ) +
          catScoreQ (extractWords student.extracurricular_activities)
            (extractWords nrt.interests_outside_medicine) * (0.2 : ℚ)) := rfl

theorem catScoreQ_nonneg (s t : List String) : 0 ≤ catScoreQ s t := by
  unfold catScoreQ
  split
  · positivity
  · exact le_refl 0

theorem catScoreQ_le_100 (s t : List String) (hs : s.Nodup) :
    catScoreQ s t ≤ 100 := by
  unfold catScoreQ
  split
  case isTrue h =>
    have hm : (s.filter (fun w => t.contains w)).length ≤
        ((s ++ t).dedup).length := by
      have h1 : (s.filter (fun w => t.contains w)).length ≤ s.length :=
        s.length_filter_le _
      have h2 : s.length = s.toFinset.card := by
        rw [List.card_toFinset, hs.dedup]
      have h3 : s.toFinset.card ≤ ((s ++ t).dedup).length := by
        rw [← List.card_toFinset]
        exact Finset.card_le_card (by
          intro w hw
          rw [List.mem_toFinset] at hw ⊢
          exact List.mem_append_left t hw)
      omega
    have hu : (0 : ℚ) < (((s ++ t).dedup).length : ℚ) := by exact_mod_cast h
    have hdiv : ((s.filter (fun w => t.contains w)).length : ℚ) /
        (((s ++ t).dedup).length : ℚ) ≤ 1 :=
      (div_le_one hu).mpr (by exact_mod_cast hm)
    calc ((s.filter (fun w => t.contains w)).length : ℚ) /
          (((s ++ t).dedup).length : ℚ) * 100
        ≤ 1 * 100 := by
          exact mul_le_mul_of_nonneg_right hdiv (by norm_num)
      _ = 100 := by norm_num
  case isFalse h => norm_num

theorem filter_contains_card (s t : List String) (hs : s.Nodup) :
    (s.filter (fun w => t.contains w)).length
      = (s.toFinset ∩ t.toFinset).card := by
  have hnd : (s.filter (fun w => t.contains w)).Nodup := hs.filter _
  have h1 : (s.filter (fun w => t.contains w)).length
      = (s.filter (fun w => t.contains w)).toFinset.card := by
    rw [List.card_toFinset, hnd.dedup]
  rw [h1]
  congr 1
  ext w
  simp [List.mem_toFinset, List.mem_filter, Finset.mem_inter, List.elem_eq_mem]

theorem dedup_union_card (s t : List String) :
    ((s ++ t).dedup).length = (s.toFinset ∪ t.toFinset).card := by
  rw [← List.toFinset_append, List.card_toFinset]

theorem catScoreQ_eq_jaccard (s t : List String) (hs : s.Nodup) :
    catScoreQ s t
      = 100 * ((s.toFinset ∩ t.toFinset).card : ℚ) /
          ((s.toFinset ∪ t.toFinset).card : ℚ) := by
  unfold catScoreQ
  split
  case isTrue h =>
    rw [filter_contains_card s t hs, dedup_union_card]
    ring
  case isFalse h =>
    have hz : ((s ++ t).dedup).length = 0 := by omega
    rw [dedup_union_card] at hz
    rw [hz]
    norm_num

theorem round_nonneg_of_nonneg (q : ℚ) (h : 0 ≤ q) : 0 ≤ round q := by
  rw [round_eq]
  exact Int.le_floor.mpr (by push_cast; linarith)

theorem round_le_100_of_le (q : ℚ) (h : q ≤ 100) : round q ≤ 100 := by
  rw [round_eq]
  have h1 : (⌊q + 1 / 2⌋ : ℤ) ≤ ⌊(100 : ℚ) + 1 / 2⌋ :=
    Int.floor_le_floor (by linarith)
  have h2 : (⌊(100 : ℚ) + 1 / 2⌋ : ℤ) = 100 := by norm_num
  omega

theorem catScoreQ_comm (s t : List String) (hs : s.Nodup) (ht : t.Nodup) :
    catScoreQ t s = catScoreQ s t := by
  rw [catScoreQ_eq_jaccard t s ht, catScoreQ_eq_jaccard s t hs,
    Finset.inter_comm, Finset.union_comm]

/-! ### Claim C3 -/

/-- C3 (counterexample).  The claim says all four similarity values lie
in `[0, 100]` with each category score equal to the Jaccard overlap, for
arbitrary free-text contents *including repeated words*.  With the student
text `"health health policy"` against the tutor text `"health policy"` the
code counts the repeated student word twice in the match count but once in
the union, returning a medical score of `150` (the Jaccard value would be
`100`). -/
theorem similarity_score_overflow :
    (calculateSimilarity dupStudent dupNRT).medicalScore = 150 := by
  have h : (calculateSimilarity dupStudent dupNRT).medicalScore
      = round ((((3 : ℕ) : ℚ) / (((2 : ℕ)) : ℚ)) * 100) := rfl
  rw [h, round_eq]
  norm_num

/-- C3 (corrected).  Provided the student-side extracted term list of
each category has no repeated term (the spec's "set of significant terms"
reading), all four values of `calculateSimilarity` lie between `0` and
`100`, and each category score is the rounded Jaccard overlap
`100 × |S ∩ T| / |S ∪ T|` of the extracted term sets — in `ℚ`, division by
a zero union size yields `0`, matching the code's empty-union branch.
Without that proviso repeated student terms are counted with multiplicity
and the score can exceed `100` (see `similarity_score_overflow`). -/
theorem similarity_scores_bounded_jaccard (student : Student) (nrt : NRT)
    (hmed : (extractWords student.medical_interests).Nodup)
    (hres : (extractWords student.research_activities).Nodup)
    (hhob : (extractWords student.extracurricular_activities).Nodup) :
    (0 ≤ (calculateSimilarity student nrt).medicalScore ∧
      (calculateSimilarity student nrt).medicalScore ≤ 100) ∧
    (0 ≤ (calculateSimilarity student nrt).researchScore ∧
      (calculateSimilarity student nrt).researchScore ≤ 100) ∧
    (0 ≤ (calculateSimilarity student nrt).hobbyScore ∧
      (calculateSimilarity student nrt).hobbyScore ≤ 100) ∧
    (0 ≤ (calculateSimilarity student nrt).score ∧
      (calculateSimilarity student nrt).score ≤ 100) ∧
    (calculateSimilarity student nrt).medicalScore
      = round (100 * (((extractWords student.medical_interests).toFinset ∩
            (extractWords nrt.medical_interests).toFinset).card : ℚ) /
          (((extractWords student.medical_interests).toFinset ∪
            (extractWords nrt.medical_interests).toFinset).card : ℚ)) ∧
    (calculateSimilarity student nrt).researchScore
      = round (100 * (((extractWords student.research_activities).toFinset ∩
            (extractWords nrt.interested_in_research).toFinset).card : ℚ) /
          (((extractWords student.research_activities).toFinset ∪
            (extractWords nrt.interested_in_research).toFinset).card : ℚ)) ∧
    (calculateSimilarity student nrt).hobbyScore
      = round (100 * (((extractWords student.extracurricular_activities).toFinset ∩
            (extractWords nrt.interests_outside_medicine).toFinset).card : ℚ) /
          (((extractWords student.extracurricular_activities).toFinset ∪
            (extractWords nrt.interests_outside_medicine).toFinset).card : ℚ)) := by
  have hm0 := catScoreQ_nonneg (extractWords student.medical_interests)
    (extractWords nrt.medical_interests)
  have hm1 := catScoreQ_le_100 (extractWords student.medical_interests)
    (extractWords nrt.medical_interests) hmed
  have hr0 := catScoreQ_nonneg (extractWords student.research_activities)
    (extractWords nrt.interested_in_research)
  have hr1 := catScoreQ_le_100 (extractWords student.research_activities)
    (extractWords nrt.interested_in_research) hres
  have hh0 := catScoreQ_nonneg (extractWords student.extracurricular_activities)
    (extractWords nrt.interests_outside_medicine)
  have hh1 := catScoreQ_le_100 (extractWords student.extracurricular_activities)
    (extractWords nrt.interests_outside_medicine) hhob
  refine ⟨⟨?_, ?_⟩, ⟨?_, ?_⟩, ⟨?_, ?_⟩, ⟨?_, ?_⟩, ?_, ?_, ?_⟩
  · rw [medicalScore_eq]; exact round_nonneg_of_nonneg _ hm0
  · rw [medicalScore_eq]; exact round_le_100_of_le _ hm1
  · rw [researchScore_eq]; exact round_nonneg_of_nonneg _ hr0
  · rw [researchScore_eq]; exact round_le_100_of_le _ hr1
  · rw [hobbyScore_eq]; exact round_nonneg_of_nonneg _ hh0
  · rw [hobbyScore_eq]; exact round_le_100_of_le _ hh1
  · rw [score_eq]; exact round_nonneg_of_nonneg _ (by positivity)
  · rw [score_eq]; exact round_le_100_of_le _ (by nlinarith)
  · rw [medicalScore_eq, catScoreQ_eq_jaccard _ _ hmed]
  · rw [researchScore_eq, catScoreQ_eq_jaccard _ _ hres]
  · rw [hobbyScore_eq, catScoreQ_eq_jaccard _ _ hhob]

/-- C3 (witness).  The corrected bounds/Jaccard property applied to the
concrete duplicate-free profiles `plainStudent` / `plainNRT`. -/
theorem similarity_scores_bounded_jaccard_witness :
    ((extractWords plainStudent.medical_interests).Nodup ∧
      (extractWords plainStudent.research_activities).Nodup ∧
      (extractWords plainStudent.extracurricular_activities).Nodup) ∧
    ((0 ≤ (calculateSimilarity plainStudent plainNRT).medicalScore ∧
      (calculateSimilarity plainStudent plainNRT).medicalScore ≤ 100) ∧
    (0 ≤ (calculateSimilarity plainStudent plainNRT).researchScore ∧
      (calculateSimilarity plainStudent plainNRT).researchScore ≤ 100) ∧
    (0 ≤ (calculateSimilarity plainStudent plainNRT).hobbyScore ∧
      (calculateSimilarity plainStudent plainNRT).hobbyScore ≤ 100) ∧
    (0 ≤ (calculateSimilarity plainStudent plainNRT).score ∧
      (calculateSimilarity plainStudent plainNRT).score ≤ 100) ∧
    (calculateSimilarity plainStudent plainNRT).medicalScore
      = round (100 * (((extractWords plainStudent.medical_interests).toFinset ∩
            (extractWords plainNRT.medical_interests).toFinset).card : ℚ) /
          (((extractWords plainStudent.medical_interests).toFinset ∪
            (extractWords plainNRT.medical_interests).toFinset).card : ℚ)) ∧
    (calculateSimilarity plainStudent plainNRT).researchScore
      = round (100 * (((extractWords plainStudent.research_activities).toFinset ∩
            (extractWords plainNRT.interested_in_research).toFinset).card : ℚ) /
          (((extractWords plainStudent.research_activities).toFinset ∪
            (extractWords plainNRT.interested_in_research).toFinset).card : ℚ)) ∧
    (calculateSimilarity plainStudent plainNRT).hobbyScore
      = round (100 * (((extractWords plainStudent.extracurricular_activities).toFinset ∩
            (extractWords plainNRT.interests_outside_medicine).toFinset).card : ℚ) /
          (((extractWords plainStudent.extracurricular_activities).toFinset ∪
            (extractWords plainNRT.interests_outside_medicine).toFinset).card : ℚ))) :=
  ⟨⟨by decide, by decide, by decide⟩,
    similarity_scores_bounded_jaccard plainStudent plainNRT
      (by decide) (by decide) (by decide)⟩

/-! ### Claim C9 -/

/-- C9 (counterexample).  The similarity score is not symmetric under
swapping the two sides of each paired field when a text repeats a
significant word: `"health health"` against `"health"` scores `200` on the
medical category, while the swapped pairing scores `100`. -/
theorem similarity_swap_asymmetric :
    (calculateSimilarity symStudent symNRT).medicalScore = 200 ∧
    (calculateSimilarity (swapStudent symStudent symNRT)
      (swapNRT symStudent symNRT)).medicalScore = 100 := by
  constructor
  · have h : (calculateSimilarity symStudent symNRT).medicalScore
        = round ((((2 : ℕ) : ℚ) / (((1 : ℕ)) : ℚ)) * 100) := rfl
    rw [h, round_eq]; norm_num
  · have h : (calculateSimilarity (swapStudent symStudent symNRT)
        (swapNRT symStudent symNRT)).medicalScore
        = round ((((1 : ℕ) : ℚ) / (((1 : ℕ)) : ℚ)) * 100) := rfl
    rw [h, round_eq]; norm_num

/-- C9 (corrected).  Provided all six extracted term lists are
duplicate-free, exchanging the two texts of each paired field category
(`swapStudent` / `swapNRT`) yields the same three category scores and the
same overall score, by symmetry of the Jaccard overlap.  With a repeated
term the match count depends on which side is the student (see
`similarity_swap_asymmetric`). -/
theorem similarity_swap_symmetric (student : Student) (nrt : NRT)
    (h1 : (extractWords student.medical_interests).Nodup)
    (h2 : (extractWords nrt.medical_interests).Nodup)
    (h3 : (extractWords student.research_activities).Nodup)
    (h4 : (extractWords nrt.interested_in_research).Nodup)
    (h5 : (extractWords student.extracurricular_activities).Nodup)
    (h6 : (extractWords nrt.interests_outside_medicine).Nodup) :
    (calculateSimilarity (swapStudent student nrt) (swapNRT student nrt)).medicalScore
      = (calculateSimilarity student nrt).medicalScore ∧
    (calculateSimilarity (swapStudent student nrt) (swapNRT student nrt)).researchScore
      = (calculateSimilarity student nrt).researchScore ∧
    (calculateSimilarity (swapStudent student nrt) (swapNRT student nrt)).hobbyScore
      = (calculateSimilarity student nrt).hobbyScore ∧
    (calculateSimilarity (swapStudent student nrt) (swapNRT student nrt)).score
      = (calculateSimilarity student nrt).score := by
  have hswapS : (swapStudent student nrt).medical_interests = nrt.medical_interests ∧
      (swapStudent student nrt).research_activities = nrt.interested_in_research ∧
      (swapStudent student nrt).extracurricular_activities
        = nrt.interests_outside_medicine := ⟨rfl, rfl, rfl⟩
  have hswapT : (swapNRT student nrt).medical_interests = student.medical_interests ∧
      (swapNRT student nrt).interested_in_research = student.research_activities ∧
      (swapNRT student nrt).interests_outside_medicine
        = student.extracurricular_activities := ⟨rfl, rfl, rfl⟩
  refine ⟨?_, ?_, ?_, ?_⟩
  · rw [medicalScore_eq, medicalScore_eq, hswapS.1, hswapT.1,
      catScoreQ_comm _ _ h1 h2]
  · rw [researchScore_eq, researchScore_eq, hswapS.2.1, hswapT.2.1,
      catScoreQ_comm _ _ h3 h4]
  · rw [hobbyScore_eq, hobbyScore_eq, hswapS.2.2, hswapT.2.2,
      catScoreQ_comm _ _ h5 h6]
  · rw [score_eq, score_eq, hswapS.1, hswapT.1, hswapS.2.1, hswapT.2.1,
      hswapS.2.2, hswapT.2.2, catScoreQ_comm _ _ h1 h2,
      catScoreQ_comm _ _ h3 h4, catScoreQ_comm _ _ h5 h6]

/-- C9 (witness).  The corrected symmetry property applied to the
duplicate-free profiles `plainStudent` / `plainNRT`. -/
theorem similarity_swap_symmetric_witness :
    ((extractWords plainStudent.medical_interests).Nodup ∧
      (extractWords plainNRT.medical_interests).Nodup ∧
      (extractWords plainStudent.research_activities).Nodup ∧
      (extractWords plainNRT.interested_in_research).Nodup ∧
      (extractWords plainStudent.extracurricular_activities).Nodup ∧
      (extractWords plainNRT.interests_outside_medicine).Nodup) ∧
    ((calculateSimilarity (swapStudent plainStudent plainNRT)
        (swapNRT plainStudent plainNRT)).medicalScore
      = (calculateSimilarity plainStudent plainNRT).medicalScore ∧
    (calculateSimilarity (swapStudent plainStudent plainNRT)
        (swapNRT plainStudent plainNRT)).researchScore
      = (calculateSimilarity plainStudent plainNRT).researchScore ∧
    (calculateSimilarity (swapStudent plainStudent plainNRT)
        (swapNRT plainStudent plainNRT)).hobbyScore
      = (calculateSimilarity plainStudent plainNRT).hobbyScore ∧
    (calculateSimilarity (swapStudent plainStudent plainNRT)
        (swapNRT plainStudent plainNRT)).score
      = (calculateSimilarity plainStudent plainNRT).score) :=
  ⟨⟨by decide, by decide, by decide, by decide, by decide, by decide⟩,
    similarity_swap_symmetric plainStudent plainNRT
      (by decide) (by decide) (by decide) (by decide) (by decide) (by decide)⟩

/-! ### Claim C8 -/

/-- C8 (counterexample).  On the spec's end-to-end scenario the single
returned pair has medical score `75`, not `100`: the tutor word `"work"`
enlarges the union (`{global, health, policy, work}`), so the overlap is
`3/4`. -/
theorem scenario_medical_not_100 :
    (generateOptimalAssignments [scenarioStudent] [scenarioNRT] []).map
      (fun a => a.similarity.medicalScore) = [75] := by
  have h : generateOptimalAssignments [scenarioStudent] [scenarioNRT] []
      = [{ student := scenarioStudent, nrt := scenarioNRT,
           similarity := calculateSimilarity scenarioStudent scenarioNRT }] := rfl
  rw [h]
  have h2 : (calculateSimilarity scenarioStudent scenarioNRT).medicalScore
      = round ((((3 : ℕ) : ℚ) / (((4 : ℕ)) : ℚ)) * 100) := rfl
  simp only [List.map_cons, List.map_nil, h2, round_eq]
  norm_num

/-- C8 (corrected).  On the spec's end-to-end scenario
(`students = [{id 1, medical "global health policy"}]`,
`tutors = [{a@x.com, active, medical "global health and policy work"}]`,
no current assignments), `generateOptimalAssignments` returns exactly one
pair assigning the student to `"a@x.com"` — but with medical score `75`
and overall score `30` (`0.4 × 75`), not `100`/`100`. -/
theorem scenario_single_pair_75_30 :
    (generateOptimalAssignments [scenarioStudent] [scenarioNRT] []).map
      (fun a => (a.student.row_index, a.nrt.email,
        a.similarity.medicalScore, a.similarity.score))
      = [(1, "a@x.com", 75, 30)] := by
  have h : generateOptimalAssignments [scenarioStudent] [scenarioNRT] []
      = [{ student := scenarioStudent, nrt := scenarioNRT,
           similarity := calculateSimilarity scenarioStudent scenarioNRT }] := rfl
  rw [h]
  have h2 : (calculateSimilarity scenarioStudent scenarioNRT).medicalScore
      = round ((((3 : ℕ) : ℚ) / (((4 : ℕ)) : ℚ)) * 100) := rfl
  have h3 : (calculateSimilarity scenarioStudent scenarioNRT).score
      = round ((((3 : ℕ) : ℚ) / (((4 : ℕ)) : ℚ)) * 100 * (0.4 : ℚ) +
          0 * (0.4 : ℚ) + 0 * (0.2 : ℚ)) := rfl
  simp only [List.map_cons, List.map_nil, h2, h3, round_eq]
  norm_num
  exact ⟨rfl, rfl⟩

/-! ### Object-map lemmas -/

theorem objGet?_objSet_self {κ α : Type} [BEq κ] [LawfulBEq κ]
    (m : List (κ × α)) (k : κ) (v : α) :
    objGet? (objSet m k v) k = some v := by
  induction m with
  | nil => simp [objSet, objGet?]
  | cons e rest ih =>
    by_cases h : e.1 == k
    · simp [objSet, h, objGet?]
    · simp only [objSet, h, Bool.false_eq_true, if_false]
      simp only [objGet?, List.find?_cons, h]
      exact ih

theorem objGet?_objSet_ne {κ α : Type} [BEq κ] [LawfulBEq κ]
    (m : List (κ × α)) (k k' : κ) (v : α) (h : k' ≠ k) :
    objGet? (objSet m k v) k' = objGet? m k' := by
  induction m with
  | nil =>
    simp [objSet, objGet?, List.find?_cons, beq_eq_false_iff_ne.mpr h.symm]
  | cons e rest ih =>
    by_cases he : e.1 == k
    · have he' : (e.1 == k') = false := by
        have : e.1 = k := by exact eq_of_beq he
        exact beq_eq_false_iff_ne.mpr (this ▸ fun hk => h hk.symm)
      simp [objSet, he, objGet?, List.find?_cons, he',
        beq_eq_false_iff_ne.mpr (fun hk => h hk.symm)]
    · simp only [objSet, he, Bool.false_eq_true, if_false]
      simp only [objGet?, List.find?_cons] at ih ⊢
      cases hc : e.1 == k'
      · simpa [hc] using ih
      · simp [hc]

theorem objGetD_objSet_self {κ α : Type} [BEq κ] [LawfulBEq κ]
    (m : List (κ × α)) (k : κ) (v d : α) :
    objGetD (objSet m k v) k d = v := by
  simp [objGetD, objGet?_objSet_self]

theorem objGetD_objSet_ne {κ α : Type} [BEq κ] [LawfulBEq κ]
    (m : List (κ × α)) (k k' : κ) (v d : α) (h : k' ≠ k) :
    objGetD (objSet m k v) k' d = objGetD m k' d := by
  simp [objGetD, objGet?_objSet_ne m k k' v h]

/-! ### Claim C2: matcher lemmas -/

theorem nrtCounts_seed (ns : List NRT) (ca : List (String × List Student))
    (m0 : List (String × Nat)) (e : String) :
    objGetD (ns.foldl (fun m nrt =>
        objSet m nrt.email (objGetD ca nrt.email []).length) m0) e 0
      = if e ∈ ns.map (·.email) then (objGetD ca e []).length
        else objGetD m0 e 0 := by
  induction ns generalizing m0 with
  | nil => simp
  | cons n rest ih =>
    simp only [List.foldl_cons, ih, List.map_cons, List.mem_cons]
    by_cases hr : e ∈ rest.map (·.email)
    · simp [hr]
    · by_cases he : e = n.email
      · subst he
        simp [hr, objGetD_objSet_self]
      · simp [hr, he, objGetD_objSet_ne _ _ _ _ _ he]

theorem greedy_fold_invariant (seed : String → Nat) (ns : List NRT)
    (entries : List ScoreEntry) (acc : GreedyAcc)
    (hmem : ∀ x ∈ entries, x.nrt ∈ ns)
    (hnd : (acc.1.map (fun a => a.student.row_index)).Nodup)
    (hsub : ∀ a ∈ acc.1, a.student.row_index ∈ acc.2.1)
    (hacc : ∀ a ∈ acc.1, a.nrt ∈ ns)
    (hc1 : ∀ e : String, objGetD acc.2.2 e 0
      = seed e + (acc.1.filter (fun a => a.nrt.email == e)).length)
    (hc2 : ∀ e : String, (acc.1.filter (fun a => a.nrt.email == e)).length = 0 ∨
      objGetD acc.2.2 e 0 ≤ 3) :
    (((entries.foldl greedyStep acc).1.map
        (fun a => a.student.row_index)).Nodup) ∧
    (∀ a ∈ (entries.foldl greedyStep acc).1, a.nrt ∈ ns) ∧
    (∀ e : String, ((entries.foldl greedyStep acc).1.filter
        (fun a => a.nrt.email == e)).length ≤ 3 - seed e) := by
  induction entries generalizing acc with
  | nil =>
    simp only [List.foldl_nil]
    refine ⟨hnd, hacc, fun e => ?_⟩
    rcases hc2 e with h | h
    · omega
    · have := hc1 e
      omega
  | cons entry rest ih =>
    simp only [List.foldl_cons]
    by_cases hskip1 : acc.2.1.contains entry.student.row_index = true
    · have hstep : greedyStep acc entry = acc := by
        unfold greedyStep
        rw [if_pos hskip1]
      rw [hstep]
      exact ih acc (fun x hx => hmem x (List.mem_cons_of_mem _ hx))
        hnd hsub hacc hc1 hc2
    · by_cases hskip2 : 3 ≤ objGetD acc.2.2 entry.nrt.email 0
      · have hstep : greedyStep acc entry = acc := by
          unfold greedyStep
          rw [if_neg hskip1, if_pos hskip2]
        rw [hstep]
        exact ih acc (fun x hx => hmem x (List.mem_cons_of_mem _ hx))
          hnd hsub hacc hc1 hc2
      · have hstep : greedyStep acc entry =
            (acc.1 ++ [{ student := entry.student, nrt := entry.nrt,
                         similarity := entry.similarity : Assignment }],
             entry.student.row_index :: acc.2.1,
             objSet acc.2.2 entry.nrt.email
               (objGetD acc.2.2 entry.nrt.email 0 + 1)) := by
          unfold greedyStep
          rw [if_neg hskip1, if_neg hskip2]
        rw [hstep]
        have hnotmem : entry.student.row_index ∉
            acc.1.map (fun a => a.student.row_index) := by
          intro hin
          rcases List.mem_map.mp hin with ⟨a, ha, hrow⟩
          have hmm := hsub a ha
          rw [hrow] at hmm
          refine hskip1 ?_
          simpa [List.contains, List.elem_eq_mem] using hmm
        refine ih _ (fun x hx => hmem x (List.mem_cons_of_mem _ hx)) ?_ ?_ ?_ ?_ ?_
        · have hnd2 : (acc.1.map (fun a => a.student.row_index) ++
              [entry.student.row_index]).Nodup := by
            rw [List.nodup_append]
            refine ⟨hnd, List.nodup_singleton _, ?_⟩
            intro a ha hb
            simp only [List.mem_singleton] at hb
            subst hb
            exact hnotmem ha
          simpa using hnd2
        · intro a ha
          rcases List.mem_append.mp ha with ha | ha
          · exact List.mem_cons_of_mem _ (hsub a ha)
          · simp only [List.mem_singleton] at ha
            subst ha
            exact List.mem_cons_self _ _
        · intro a ha
          rcases List.mem_append.mp ha with ha | ha
          · exact hacc a ha
          · simp only [List.mem_singleton] at ha
            subst ha
            exact hmem entry (List.mem_cons_self _ _)
        · intro e
          by_cases he : e = entry.nrt.email
          · subst he
            rw [objGetD_objSet_self, hc1, List.filter_append]
            have hA : (List.filter (fun a => a.nrt.email == entry.nrt.email)
                [{ student := entry.student, nrt := entry.nrt,
                   similarity := entry.similarity : Assignment }]).length = 1 := by
              simp
            simp only [List.length_append, hA]
            omega
          · rw [objGetD_objSet_ne _ _ _ _ _ he, hc1, List.filter_append]
            have hfalse : (entry.nrt.email == e) = false := beq_eq_false_iff_ne.mpr
              (fun hk => he hk.symm)
            simp [List.filter, hfalse]
        · intro e
          by_cases he : e = entry.nrt.email
          · subst he
            right
            rw [objGetD_objSet_self]
            omega
          · rw [objGetD_objSet_ne _ _ _ _ _ he, List.filter_append]
            have hfalse : (entry.nrt.email == e) = false := beq_eq_false_iff_ne.mpr
              (fun hk => he hk.symm)
            simpa [List.filter, hfalse] using hc2 e

theorem greedy_pipeline_props
    (cmp : ScoreEntry → ScoreEntry → Prop) [DecidableRel cmp]
    (cmp2 : Assignment → Assignment → Prop) [DecidableRel cmp2]
    (ns : List NRT) (ca : List (String × List Student))
    (entries : List ScoreEntry)
    (hmem : ∀ x ∈ entries, x.nrt ∈ ns) :
    ((List.insertionSort cmp2
        ((List.insertionSort cmp entries).foldl greedyStep
          (([] : List Assignment), ([] : List Nat),
            ns.foldl (fun m nrt =>
              objSet m nrt.email (objGetD ca nrt.email []).length)
              ([] : List (String × Nat)))).1).map
        (fun a => a.student.row_index)).Nodup ∧
    ∀ e : String,
      ((List.insertionSort cmp2
        ((List.insertionSort cmp entries).foldl greedyStep
          (([] : List Assignment), ([] : List Nat),
            ns.foldl (fun m nrt =>
              objSet m nrt.email (objGetD ca nrt.email []).length)
              ([] : List (String × Nat)))).1).filter
        (fun a => a.nrt.email == e)).length ≤ 3 - (objGetD ca e []).length := by
  set nrtCounts := ns.foldl (fun m nrt =>
    objSet m nrt.email (objGetD ca nrt.email []).length)
    ([] : List (String × Nat)) with hcounts
  set sortedScores := List.insertionSort cmp entries with hsorted
  have hmemSorted : ∀ x ∈ sortedScores, x.nrt ∈ ns := by
    intro x hx
    exact hmem x ((List.perm_insertionSort _ entries).mem_iff.mp hx)
  have hfold := greedy_fold_invariant
    (fun e => objGetD nrtCounts e 0) ns sortedScores
    (([] : List Assignment), ([] : List Nat), nrtCounts)
    hmemSorted (by simp) (by simp) (by simp) (by simp) (by simp)
  set final := sortedScores.foldl greedyStep
    (([] : List Assignment), ([] : List Nat), nrtCounts) with hfinal
  have hperm : List.Perm (List.insertionSort cmp2 final.1) final.1 :=
    List.perm_insertionSort _ _
  constructor
  · exact ((hperm.map (fun a => a.student.row_index)).nodup_iff).mpr hfold.1
  · intro e
    have hlen : ((List.insertionSort cmp2 final.1).filter
        (fun a => a.nrt.email == e)).length
        = (final.1.filter (fun a => a.nrt.email == e)).length :=
      (hperm.filter _).length_eq
    rw [hlen]
    by_cases he : e ∈ ns.map (·.email)
    · have hseed : objGetD nrtCounts e 0 = (objGetD ca e []).length := by
        rw [hcounts, nrtCounts_seed]
        simp [he]
      have h2 := hfold.2.2 e
      simp only at h2
      omega
    · have hempty : (final.1.filter (fun a => a.nrt.email == e)).length = 0 := by
        rw [List.length_eq_zero, List.filter_eq_nil_iff]
        intro a ha
        intro hbeq
        have hae : a.nrt.email = e := eq_of_beq hbeq
        exact he (hae ▸ List.mem_map_of_mem (·.email) (hfold.2.1 a ha))
      omega

/-- C2 (confirmed).  For every student list, NRT list and
current-assignment map, the suggestion list of
`generateOptimalAssignments` never contains two entries with the same
student identity, and for each tutor email it contains at most
`3 − currentCount` new entries, where `currentCount` is the length of the
tutor's current-assignment bucket. -/
theorem matcher_distinct_students_capacity (students : List Student)
    (nrts : List NRT) (ca : List (String × List Student)) :
    ((generateOptimalAssignments students nrts ca).map
        (fun a => a.student.row_index)).Nodup ∧
    ∀ e : String, ((generateOptimalAssignments students nrts ca).filter
        (fun a => a.nrt.email == e)).length
      ≤ 3 - (objGetD ca e []).length := by
  simp only [generateOptimalAssignments]
  split
  · simp
  · refine greedy_pipeline_props _ _ _ ca _ ?_
    intro x hx
    rcases List.mem_flatMap.mp hx with ⟨s, _, hx2⟩
    rcases List.mem_map.mp hx2 with ⟨nrt, hnrt, hx3⟩
    rw [← hx3]
    exact hnrt

/-! ### Board-state accounting lemmas -/

theorem rowCount_nil (id : Nat) : rowCount [] id = 0 := rfl

theorem rowCount_filter_self (l : List Student) (aid : Nat) :
    rowCount (l.filter (fun (s : Student) => !(s.row_index == aid))) aid = 0 := by
  simp only [rowCount, List.countP_eq_zero]
  intro s hs
  rcases List.mem_filter.mp hs with ⟨_, hpred⟩
  simpa using hpred

theorem rowCount_filter_ne (l : List Student) (aid id : Nat) (h : id ≠ aid) :
    rowCount (l.filter (fun (s : Student) => !(s.row_index == aid))) id
      = rowCount l id := by
  simp only [rowCount]
  induction l with
  | nil => rfl
  | cons s rest ih =>
    by_cases hs : s.row_index = aid
    · have h1 : (!(s.row_index == aid)) = false := by simp [hs]
      have h2 : (s.row_index == id) = false := by
        rw [hs]
        exact beq_eq_false_iff_ne.mpr (Ne.symm h)
      simp [List.filter_cons, h1, List.countP_cons, h2, ih]
    · have h1 : (!(s.row_index == aid)) = true := by simp [hs]
      simp [List.filter_cons, h1, List.countP_cons, ih]

theorem rowCount_append (l l' : List Student) (id : Nat) :
    rowCount (l ++ l') id = rowCount l id + rowCount l' id :=
  List.countP_append _ _ _

theorem rowCount_pos_of_mem (l : List Student) (s : Student) (hs : s ∈ l) :
    1 ≤ rowCount l s.row_index := by
  simp only [rowCount]
  exact List.countP_pos.mpr ⟨s, hs, by simp⟩

theorem find?_row_some (l : List Student) (aid : Nat) (s : Student)
    (h : l.find? (fun (s : Student) => s.row_index == aid) = some s) :
    s.row_index = aid ∧ 1 ≤ rowCount l aid := by
  have h1 : s.row_index = aid := by
    have := List.find?_some h
    simpa using this
  refine ⟨h1, ?_⟩
  have h2 : s ∈ l := List.mem_of_find?_eq_some h
  have := rowCount_pos_of_mem l s h2
  rwa [h1] at this

theorem find?_row_none (l : List Student) (aid : Nat)
    (h : rowCount l aid = 0) :
    l.find? (fun (s : Student) => s.row_index == aid) = none := by
  rw [List.find?_eq_none]
  intro s hs hpred
  have : s.row_index = aid := by simpa using hpred
  have hpos := rowCount_pos_of_mem l s hs
  rw [this] at hpos
  omega

theorem any_row_eq_false (l : List Student) (aid : Nat)
    (h : rowCount l aid = 0) :
    (l.any (fun (s : Student) => s.row_index == aid)) = false := by
  rw [List.any_eq_false]
  intro s hs hpred
  have : s.row_index = aid := by simpa using hpred
  have hpos := rowCount_pos_of_mem l s hs
  rw [this] at hpos
  omega

theorem any_row_eq_true (l : List Student) (aid : Nat)
    (h : 1 ≤ rowCount l aid) :
    (l.any (fun (s : Student) => s.row_index == aid)) = true := by
  have hpos : 0 < l.countP (fun (s : Student) => s.row_index == aid) := h
  rcases List.countP_pos.mp hpos with ⟨s, hs, hpred⟩
  exact List.any_eq_true.mpr ⟨s, hs, hpred⟩

theorem bucketsCount_cons (b : String × List Student)
    (m : List (String × List Student)) (id : Nat) :
    bucketsCount (b :: m) id = rowCount b.2 id + bucketsCount m id := by
  simp [bucketsCount]

theorem bucketsCount_objSet (m : List (String × List Student)) (k : String)
    (v : List Student) (id : Nat) :
    bucketsCount (objSet m k v) id + rowCount (objGetD m k []) id
      = bucketsCount m id + rowCount v id := by
  induction m with
  | nil =>
    simp [objSet, bucketsCount, objGetD, objGet?, rowCount]
  | cons b rest ih =>
    by_cases hb : b.1 == k
    · simp only [objSet, hb, if_true]
      rw [bucketsCount_cons, bucketsCount_cons]
      have h2 : objGetD (b :: rest) k [] = b.2 := by
        simp [objGetD, objGet?, List.find?_cons, hb]
      rw [h2]
      dsimp only
      omega
    · simp only [objSet, hb, Bool.false_eq_true, if_false]
      rw [bucketsCount_cons, bucketsCount_cons]
      have h2 : objGetD (b :: rest) k [] = objGetD rest k [] := by
        simp [objGetD, objGet?, List.find?_cons, hb]
      rw [h2]
      omega

theorem rowCount_le_bucketsCount (m : List (String × List Student))
    (e : String) (bucket : List Student) (id : Nat) (hmem : (e, bucket) ∈ m) :
    rowCount bucket id ≤ bucketsCount m id := by
  induction m with
  | nil => cases hmem
  | cons b rest ih =>
    rw [bucketsCount_cons]
    rcases List.mem_cons.mp hmem with h | h
    · rw [← h]
      dsimp only
      omega
    · have := ih h
      omega

theorem bucketsCount_pruneOthers_ne (m : List (String × List Student))
    (e : String) (aid id : Nat) (h : id ≠ aid) :
    bucketsCount (pruneOthers m e aid) id = bucketsCount m id := by
  induction m with
  | nil => rfl
  | cons b rest ih =>
    simp only [pruneOthers, List.map_cons] at ih ⊢
    by_cases hb : b.1 == e
    · rw [hb]
      simp only [if_true]
      rw [bucketsCount_cons, bucketsCount_cons, ih]
    · simp only [hb, Bool.false_eq_true, if_false]
      rw [bucketsCount_cons, bucketsCount_cons, ih]
      simp only
      rw [rowCount_filter_ne _ _ _ h]

theorem bucketsCount_pruneOthers_le (m : List (String × List Student))
    (e : String) (aid : Nat) :
    bucketsCount (pruneOthers m e aid) aid ≤ bucketsCount m aid := by
  induction m with
  | nil => exact le_refl 0
  | cons b rest ih =>
    simp only [pruneOthers, List.map_cons] at ih ⊢
    by_cases hb : b.1 == e
    · rw [hb]
      simp only [if_true]
      rw [bucketsCount_cons, bucketsCount_cons]
      omega
    · simp only [hb, Bool.false_eq_true, if_false]
      rw [bucketsCount_cons, bucketsCount_cons]
      simp only
      have hle : rowCount (b.2.filter
          (fun (s : Student) => !(s.row_index == aid))) aid = 0 :=
        rowCount_filter_self _ _
      omega

theorem objGet?_pruneOthers_self (m : List (String × List Student))
    (e : String) (aid : Nat) :
    objGet? (pruneOthers m e aid) e = objGet? m e := by
  induction m with
  | nil => rfl
  | cons b rest ih =>
    simp only [pruneOthers, List.map_cons] at ih ⊢
    by_cases hb : b.1 == e
    · rw [hb]
      simp [objGet?, List.find?_cons, hb]
    · simp only [hb, Bool.false_eq_true, if_false]
      simp only [objGet?, List.find?_cons] at ih ⊢
      simp only [hb]
      simpa [hb] using ih

theorem objGet?_some_mem {κ α : Type} [BEq κ] [LawfulBEq κ]
    (m : List (κ × α)) (k : κ) (v : α) (h : objGet? m k = some v) :
    (k, v) ∈ m := by
  induction m with
  | nil => simp [objGet?] at h
  | cons b rest ih =>
    simp only [objGet?, List.find?_cons] at h
    by_cases hb : b.1 == k
    · simp only [hb, if_true] at h
      have hk : b.1 = k := eq_of_beq hb
      have hv : b.2 = v := by simpa using h
      rw [List.mem_cons]
      left
      rw [← hk, ← hv]
    · simp only [hb, Bool.false_eq_true, if_false] at h
      exact List.mem_cons_of_mem _ (ih h)

theorem objGet?_of_mem_nodupKeys {κ α : Type} [BEq κ] [LawfulBEq κ]
    (m : List (κ × α)) (k : κ) (v : α)
    (hnd : (m.map Prod.fst).Nodup) (hmem : (k, v) ∈ m) :
    objGet? m k = some v := by
  induction m with
  | nil => cases hmem
  | cons b rest ih =>
    simp only [List.map_cons, List.nodup_cons] at hnd
    rcases List.mem_cons.mp hmem with h | h
    · rw [← h]
      simp [objGet?, List.find?_cons]
    · have hne : b.1 ≠ k := by
        intro he
        exact hnd.1 (he ▸ List.mem_map_of_mem Prod.fst h)
      simp only [objGet?, List.find?_cons, beq_eq_false_iff_ne.mpr hne]
      exact ih hnd.2 h

theorem findBucket_none_of_zero (m : List (String × List Student)) (aid : Nat)
    (h : bucketsCount m aid = 0) : findBucket m aid = none := by
  induction m with
  | nil => rfl
  | cons b rest ih =>
    rw [bucketsCount_cons] at h
    simp only [findBucket, List.findSome?_cons]
    have h1 : b.2.find? (fun (s : Student) => s.row_index == aid) = none :=
      find?_row_none _ _ (by omega)
    rw [h1]
    simpa [findBucket] using ih (by omega)

theorem findBucket_some_props (m : List (String × List Student)) (aid : Nat)
    (e : String) (bucket : List Student) (s : Student)
    (h : findBucket m aid = some (e, bucket, s)) :
    s.row_index = aid ∧ (e, bucket) ∈ m ∧ 1 ≤ rowCount bucket aid := by
  induction m with
  | nil => simp [findBucket] at h
  | cons b rest ih =>
    simp only [findBucket, List.findSome?_cons] at h
    cases hf : b.2.find? (fun (s : Student) => s.row_index == aid) with
    | none =>
      rw [hf] at h
      simp at h
      rcases ih (by simpa [findBucket] using h) with ⟨h1, h2, h3⟩
      exact ⟨h1, List.mem_cons_of_mem _ h2, h3⟩
    | some s' =>
      rw [hf] at h
      simp at h
      rcases find?_row_some _ _ _ hf with ⟨hrow, hpos⟩
      obtain ⟨hb1, hb2, hs'⟩ : b.1 = e ∧ b.2 = bucket ∧ s' = s := by
        simpa [Prod.ext_iff] using h
      subst hs'
      have hbeq : b = (e, bucket) := by
        rw [← hb1, ← hb2]
      refine ⟨hrow, ?_, ?_⟩
      · rw [← hbeq]
        exact List.mem_cons_self _ _
      · rw [← hb2]
        exact hpos

theorem findBucket_isSome_of_pos (m : List (String × List Student)) (aid : Nat)
    (h : 1 ≤ bucketsCount m aid) : (findBucket m aid).isSome := by
  induction m with
  | nil => simp [bucketsCount] at h
  | cons b rest ih =>
    rw [bucketsCount_cons] at h
    simp only [findBucket, List.findSome?_cons]
    cases hf : b.2.find? (fun (s : Student) => s.row_index == aid) with
    | none =>
      have hz : rowCount b.2 aid = 0 := by
        by_contra hc
        have hpos : 0 < List.countP (fun (s : Student) => s.row_index == aid) b.2 := by
          have : 1 ≤ rowCount b.2 aid := by omega
          exact this
        rcases List.countP_pos.mp hpos with ⟨x, hx, hpx⟩
        have := List.find?_eq_none.mp hf x hx
        exact this hpx
      simpa [findBucket] using ih (by omega)
    | some s' => simp

theorem rowCount_insertIdx (l : List Student) (n : Nat) (s : Student)
    (hn : n ≤ l.length) (id : Nat) :
    rowCount (List.insertIdx n s l) id
      = rowCount l id + (if s.row_index == id then 1 else 0) := by
  induction l generalizing n with
  | nil =>
    have hn0 : n = 0 := by simpa using hn
    subst hn0
    simp [List.insertIdx, rowCount, List.countP_cons]
  | cons x xs ih =>
    cases n with
    | zero =>
      simp only [List.insertIdx_zero, rowCount, List.countP_cons]
    | succ n =>
      rw [List.insertIdx_succ_cons]
      have hn' : n ≤ xs.length := by simpa using hn
      simp only [rowCount, List.countP_cons] at ih ⊢
      rw [ih n hn']
      omega

theorem rowCount_sort (l : List Student) (id : Nat) :
    rowCount (sortStudentsByStatusAndClassYear l) id = rowCount l id :=
  (List.perm_insertionSort _ l).countP_eq _

theorem rowCount_moveOutOfBucket (pool : List Student) (found : Student)
    (idx : Nat) (id : Nat) :
    rowCount (moveOutOfBucket pool found idx) id
      = rowCount pool id + (if found.row_index == id then 1 else 0) := by
  unfold moveOutOfBucket
  rw [rowCount_insertIdx _ _ _ (min_le_right _ _), rowCount_sort]

theorem rowCount_zero_of_find?_none (l : List Student) (aid : Nat)
    (h : l.find? (fun (s : Student) => s.row_index == aid) = none) :
    rowCount l aid = 0 := by
  simp only [rowCount, List.countP_eq_zero]
  intro s hs
  exact List.find?_eq_none.mp h s hs

theorem bucketsCount_zero_of_findBucket_none
    (m : List (String × List Student)) (aid : Nat)
    (h : findBucket m aid = none) : bucketsCount m aid = 0 := by
  by_contra hc
  have := findBucket_isSome_of_pos m aid (by omega)
  rw [h] at this
  simp at this

theorem rowCount_objGetD_le (m : List (String × List Student)) (e : String)
    (id : Nat) : rowCount (objGetD m e []) id ≤ bucketsCount m id := by
  cases hg : objGet? m e with
  | none => simp [objGetD, hg, rowCount]
  | some v =>
    have hmem := objGet?_some_mem m e v hg
    have := rowCount_le_bucketsCount m e v id hmem
    simpa [objGetD, hg] using this

theorem findSource_unassigned (st : AssignState) (aid : Nat) (student : Student)
    (h : findSource st aid = some (SourceType.unassigned, student)) :
    student.row_index = aid ∧ 1 ≤ rowCount st.students aid := by
  unfold findSource at h
  cases hp : st.students.find? (fun (s : Student) => s.row_index == aid) with
  | some s =>
    rw [hp] at h
    simp only [Option.some.injEq, Prod.mk.injEq] at h
    rcases find?_row_some _ _ _ hp with ⟨hrow, hpos⟩
    exact ⟨h.2 ▸ hrow, hpos⟩
  | none =>
    rw [hp] at h
    cases h1 : findBucket st.assignments aid with
    | some v =>
      rw [h1] at h
      obtain ⟨e1, b1, s1⟩ := v
      simp at h
    | none =>
      rw [h1] at h
      cases h2 : findBucket st.currentAssignments aid with
      | some v =>
        rw [h2] at h
        obtain ⟨e2, b2, s2⟩ := v
        simp at h
      | none =>
        rw [h2] at h
        simp at h

theorem findSource_newBucket (st : AssignState) (aid : Nat) (email : String)
    (student : Student)
    (h : findSource st aid = some (SourceType.newBucket email, student)) :
    student.row_index = aid ∧ rowCount st.students aid = 0 ∧
      ∃ bucket, findBucket st.assignments aid = some (email, bucket, student) := by
  unfold findSource at h
  cases hp : st.students.find? (fun (s : Student) => s.row_index == aid) with
  | some s =>
    rw [hp] at h
    simp at h
  | none =>
    rw [hp] at h
    have hpool := rowCount_zero_of_find?_none _ _ hp
    cases h1 : findBucket st.assignments aid with
    | some v =>
      rw [h1] at h
      obtain ⟨e1, b1, s1⟩ := v
      simp only [Option.some.injEq, Prod.mk.injEq, SourceType.newBucket.injEq] at h
      rcases findBucket_some_props _ _ _ _ _ h1 with ⟨hrow, _, _⟩
      obtain ⟨he, hs⟩ := h
      subst he
      subst hs
      exact ⟨hrow, hpool, b1, rfl⟩
    | none =>
      rw [h1] at h
      cases h2 : findBucket st.currentAssignments aid with
      | some v =>
        rw [h2] at h
        obtain ⟨e2, b2, s2⟩ := v
        simp at h
      | none =>
        rw [h2] at h
        simp at h

theorem findSource_curBucket (st : AssignState) (aid : Nat) (email : String)
    (student : Student)
    (h : findSource st aid = some (SourceType.curBucket email, student)) :
    student.row_index = aid ∧ rowCount st.students aid = 0 ∧
      bucketsCount st.assignments aid = 0 ∧
      ∃ bucket, findBucket st.currentAssignments aid
        = some (email, bucket, student) := by
  unfold findSource at h
  cases hp : st.students.find? (fun (s : Student) => s.row_index == aid) with
  | some s =>
    rw [hp] at h
    simp at h
  | none =>
    rw [hp] at h
    have hpool := rowCount_zero_of_find?_none _ _ hp
    cases h1 : findBucket st.assignments aid with
    | some v =>
      rw [h1] at h
      obtain ⟨e1, b1, s1⟩ := v
      simp at h
    | none =>
      rw [h1] at h
      have hassign := bucketsCount_zero_of_findBucket_none _ _ h1
      cases h2 : findBucket st.currentAssignments aid with
      | some v =>
        rw [h2] at h
        obtain ⟨e2, b2, s2⟩ := v
        simp only [Option.some.injEq, Prod.mk.injEq, SourceType.curBucket.injEq] at h
        rcases findBucket_some_props _ _ _ _ _ h2 with ⟨hrow, _, _⟩
        obtain ⟨he, hs⟩ := h
        subst he
        subst hs
        exact ⟨hrow, hpool, hassign, b2, rfl⟩
      | none =>
        rw [h2] at h
        simp at h

theorem findSource_none_locCount (st : AssignState) (aid : Nat)
    (h : findSource st aid = none) : locCount st aid = 0 := by
  unfold findSource at h
  cases hp : st.students.find? (fun (s : Student) => s.row_index == aid) with
  | some s =>
    rw [hp] at h
    simp at h
  | none =>
    rw [hp] at h
    cases h1 : findBucket st.assignments aid with
    | some v =>
      rw [h1] at h
      obtain ⟨e1, b1, s1⟩ := v
      simp at h
    | none =>
      rw [h1] at h
      cases h2 : findBucket st.currentAssignments aid with
      | some v =>
        rw [h2] at h
        obtain ⟨e2, b2, s2⟩ := v
        simp at h
      | none =>
        have hpool := rowCount_zero_of_find?_none _ _ hp
        have ha := bucketsCount_zero_of_findBucket_none _ _ h1
        have hc := bucketsCount_zero_of_findBucket_none _ _ h2
        simp [locCount, hpool, ha, hc]

/-! ### Location preservation of the board operations -/

theorem toPool_assignments_locCount (st : AssignState) (aid idx : Nat)
    (email : String) (bucket : List Student) (found : Student)
    (hWF1 : (st.assignments.map Prod.fst).Nodup)
    (hInv : ∀ id, locCount st id ≤ 1)
    (hfb : findBucket st.assignments aid = some (email, bucket, found)) :
    ∀ id, locCount { st with
        assignments := objSet st.assignments email
          (bucket.filter (fun (s : Student) => !(s.row_index == aid))),
        students := moveOutOfBucket st.students found idx } id
      = locCount st id := by
  intro id
  rcases findBucket_some_props _ _ _ _ _ hfb with ⟨hrow, hmem, hpos⟩
  have hget : objGetD st.assignments email [] = bucket := by
    simp [objGetD, objGet?_of_mem_nodupKeys _ _ _ hWF1 hmem]
  have hsum := bucketsCount_objSet st.assignments email
    (bucket.filter (fun (s : Student) => !(s.row_index == aid))) id
  rw [hget] at hsum
  have hpool := rowCount_moveOutOfBucket st.students found idx id
  simp only [locCount]
  by_cases hid : id = aid
  · subst hid
    have hble := rowCount_le_bucketsCount _ _ _ id hmem
    have hinv := hInv id
    simp only [locCount] at hinv
    have hfilter : rowCount (bucket.filter
        (fun (s : Student) => !(s.row_index == id))) id = 0 :=
      rowCount_filter_self _ _
    have hbe : (found.row_index == id) = true := by simp [hrow]
    rw [hfilter] at hsum
    rw [hpool, hbe]
    simp only [if_true]
    omega
  · have hfilter : rowCount (bucket.filter
        (fun (s : Student) => !(s.row_index == aid))) id = rowCount bucket id :=
      rowCount_filter_ne _ _ _ hid
    have hbe : (found.row_index == id) = false := by
      rw [hrow]
      exact beq_eq_false_iff_ne.mpr (Ne.symm hid)
    rw [hfilter] at hsum
    rw [hpool, hbe]
    simp only [Bool.false_eq_true, if_false]
    omega

theorem toPool_current_locCount (st : AssignState) (aid idx : Nat)
    (email : String) (bucket : List Student) (found : Student)
    (hWF2 : (st.currentAssignments.map Prod.fst).Nodup)
    (hInv : ∀ id, locCount st id ≤ 1)
    (hfb : findBucket st.currentAssignments aid = some (email, bucket, found)) :
    ∀ id, locCount { st with
        currentAssignments := objSet st.currentAssignments email
          (bucket.filter (fun (s : Student) => !(s.row_index == aid))),
        students := moveOutOfBucket st.students found idx } id
      = locCount st id := by
  intro id
  rcases findBucket_some_props _ _ _ _ _ hfb with ⟨hrow, hmem, hpos⟩
  have hget : objGetD st.currentAssignments email [] = bucket := by
    simp [objGetD, objGet?_of_mem_nodupKeys _ _ _ hWF2 hmem]
  have hsum := bucketsCount_objSet st.currentAssignments email
    (bucket.filter (fun (s : Student) => !(s.row_index == aid))) id
  rw [hget] at hsum
  have hpool := rowCount_moveOutOfBucket st.students found idx id
  simp only [locCount]
  by_cases hid : id = aid
  · subst hid
    have hble := rowCount_le_bucketsCount _ _ _ id hmem
    have hinv := hInv id
    simp only [locCount] at hinv
    have hfilter : rowCount (bucket.filter
        (fun (s : Student) => !(s.row_index == id))) id = 0 :=
      rowCount_filter_self _ _
    have hbe : (found.row_index == id) = true := by simp [hrow]
    rw [hfilter] at hsum
    rw [hpool, hbe]
    simp only [if_true]
    omega
  · have hfilter : rowCount (bucket.filter
        (fun (s : Student) => !(s.row_index == aid))) id = rowCount bucket id :=
      rowCount_filter_ne _ _ _ hid
    have hbe : (found.row_index == id) = false := by
      rw [hrow]
      exact beq_eq_false_iff_ne.mpr (Ne.symm hid)
    rw [hfilter] at hsum
    rw [hpool, hbe]
    simp only [Bool.false_eq_true, if_false]
    omega

theorem tutorFinalize_locCount (st st1 : AssignState) (e : String) (aid : Nat)
    (student : Student)
    (hrow : student.row_index = aid)
    (hpool1 : rowCount st1.students aid = 0)
    (hb1 : bucketsCount st1.assignments aid = 0)
    (hc1 : bucketsCount st1.currentAssignments aid = 0)
    (hpres : ∀ id, id ≠ aid →
      rowCount st1.students id = rowCount st.students id ∧
      bucketsCount st1.assignments id = bucketsCount st.assignments id ∧
      bucketsCount st1.currentAssignments id
        = bucketsCount st.currentAssignments id)
    (hloc : locCount st aid = 1) :
    ∀ id, locCount (tutorFinalize st1 e aid student) id = locCount st id := by
  intro id
  have hb2 : bucketsCount (pruneOthers st1.assignments e aid) aid = 0 := by
    have := bucketsCount_pruneOthers_le st1.assignments e aid
    omega
  have hc2 : bucketsCount (pruneOthers st1.currentAssignments e aid) aid = 0 := by
    have := bucketsCount_pruneOthers_le st1.currentAssignments e aid
    omega
  have hbkt : rowCount (objGetD (pruneOthers st1.assignments e aid) e []) aid
      = 0 := by
    have := rowCount_objGetD_le (pruneOthers st1.assignments e aid) e aid
    omega
  have hany : ((objGetD (pruneOthers st1.assignments e aid) e []).any
      (fun (s : Student) => s.row_index == aid)) = false :=
    any_row_eq_false _ _ hbkt
  unfold tutorFinalize
  simp only [hany, Bool.false_eq_true, if_false]
  simp only [locCount]
  have hloc2 : rowCount st.students aid + bucketsCount st.assignments aid +
      bucketsCount st.currentAssignments aid = 1 := hloc
  have hsum := bucketsCount_objSet (pruneOthers st1.assignments e aid) e
    (objGetD (pruneOthers st1.assignments e aid) e [] ++ [student]) id
  have happ := rowCount_append
    (objGetD (pruneOthers st1.assignments e aid) e []) [student] id
  by_cases hid : id = aid
  · subst hid
    have hone : rowCount [student] id = 1 := by
      simp [rowCount, List.countP_cons, hrow]
    rw [happ, hone] at hsum
    rw [hbkt] at hsum
    omega
  · have hzero : rowCount [student] id = 0 := by
      have : (student.row_index == id) = false := by
        rw [hrow]
        exact beq_eq_false_iff_ne.mpr (Ne.symm hid)
      simp [rowCount, List.countP_cons, this]
    rw [happ, hzero] at hsum
    have hpa := bucketsCount_pruneOthers_ne st1.assignments e aid id hid
    have hpc := bucketsCount_pruneOthers_ne st1.currentAssignments e aid id hid
    rcases hpres id hid with ⟨hp1, hp2, hp3⟩
    omega

theorem tutorMove_success_locCount (nrts : List NRT) (st : AssignState)
    (e : String) (activeId : Nat) (src : SourceType) (student : Student)
    (hWF : BucketsWF st) (hInv : ∀ id, locCount st id ≤ 1)
    (hsrc : findSource st activeId = some (src, student)) :
    ∀ id, locCount (tutorFinalize
      (match src with
       | SourceType.unassigned =>
         { st with students :=
             st.students.filter (fun (s : Student) => !(s.row_index == activeId)) }
       | SourceType.curBucket srcEmail =>
         { st with currentAssignments :=
             (objSet st.currentAssignments srcEmail
               ((objGetD st.currentAssignments srcEmail []).filter
                 (fun (s : Student) => !(s.row_index == activeId)))) }
       | SourceType.newBucket srcEmail =>
         { st with assignments :=
             (objSet st.assignments srcEmail
               ((objGetD st.assignments srcEmail []).filter
                 (fun (s : Student) => !(s.row_index == activeId)))) })
      e activeId student) id = locCount st id := by
  intro id
  cases src with
  | unassigned =>
    rcases findSource_unassigned st activeId student hsrc with
      ⟨hrow, hpos⟩
    have hinv : rowCount st.students activeId +
        bucketsCount st.assignments activeId +
        bucketsCount st.currentAssignments activeId ≤ 1 :=
      hInv activeId
    have hloc : locCount st activeId = 1 := by
      simp only [locCount]
      omega
    dsimp only
    refine tutorFinalize_locCount st _ e activeId student hrow
      ?_ ?_ ?_ ?_ hloc id
    · exact rowCount_filter_self _ _
    · have : bucketsCount st.assignments activeId = 0 := by omega
      exact this
    · have : bucketsCount st.currentAssignments activeId = 0 := by
        omega
      exact this
    · intro id' hne
      exact ⟨rowCount_filter_ne _ _ _ hne, rfl, rfl⟩
  | newBucket srcEmail =>
    rcases findSource_newBucket st activeId srcEmail student hsrc with
      ⟨hrow, hpool0, bucket, hfb⟩
    rcases findBucket_some_props _ _ _ _ _ hfb with ⟨_, hmem, hposb⟩
    have hget : objGetD st.assignments srcEmail [] = bucket := by
      simp [objGetD, objGet?_of_mem_nodupKeys _ _ _ hWF.1 hmem]
    have hinv : rowCount st.students activeId +
        bucketsCount st.assignments activeId +
        bucketsCount st.currentAssignments activeId ≤ 1 :=
      hInv activeId
    have hloc : locCount st activeId = 1 := by
      have hA : 1 ≤ bucketsCount st.assignments activeId := by
        have := rowCount_le_bucketsCount _ _ _ activeId hmem
        omega
      simp only [locCount]
      omega
    have hsum := bucketsCount_objSet st.assignments srcEmail
      ((objGetD st.assignments srcEmail []).filter
        (fun (s : Student) => !(s.row_index == activeId))) activeId
    dsimp only
    refine tutorFinalize_locCount st _ e activeId student hrow
      ?_ ?_ ?_ ?_ hloc id
    · exact hpool0
    · dsimp only
      have hrb : 1 ≤ rowCount (objGetD st.assignments srcEmail [])
          activeId := by
        rw [hget]
        exact hposb
      have hf0 : rowCount ((objGetD st.assignments srcEmail []).filter
          (fun (s : Student) => !(s.row_index == activeId)))
          activeId = 0 := rowCount_filter_self _ _
      rw [hf0] at hsum
      have hA : bucketsCount st.assignments activeId ≤ 1 := by omega
      omega
    · have : bucketsCount st.currentAssignments activeId = 0 := by
        have hA : 1 ≤ bucketsCount st.assignments activeId := by
          have := rowCount_le_bucketsCount _ _ _ activeId hmem
          omega
        omega
      exact this
    · intro id' hne
      refine ⟨rfl, ?_, rfl⟩
      dsimp only
      have hsum' := bucketsCount_objSet st.assignments srcEmail
        ((objGetD st.assignments srcEmail []).filter
          (fun (s : Student) => !(s.row_index == activeId))) id'
      have hf : rowCount ((objGetD st.assignments srcEmail []).filter
          (fun (s : Student) => !(s.row_index == activeId))) id'
          = rowCount (objGetD st.assignments srcEmail []) id' :=
        rowCount_filter_ne _ _ _ hne
      rw [hf] at hsum'
      omega
  | curBucket srcEmail =>
    rcases findSource_curBucket st activeId srcEmail student hsrc with
      ⟨hrow, hpool0, hassign0, bucket, hfc⟩
    rcases findBucket_some_props _ _ _ _ _ hfc with ⟨_, hmem, hposb⟩
    have hget : objGetD st.currentAssignments srcEmail [] = bucket := by
      simp [objGetD, objGet?_of_mem_nodupKeys _ _ _ hWF.2 hmem]
    have hinv : rowCount st.students activeId +
        bucketsCount st.assignments activeId +
        bucketsCount st.currentAssignments activeId ≤ 1 :=
      hInv activeId
    have hloc : locCount st activeId = 1 := by
      have hC : 1 ≤ bucketsCount st.currentAssignments activeId := by
        have := rowCount_le_bucketsCount _ _ _ activeId hmem
        omega
      simp only [locCount]
      omega
    have hsum := bucketsCount_objSet st.currentAssignments srcEmail
      ((objGetD st.currentAssignments srcEmail []).filter
        (fun (s : Student) => !(s.row_index == activeId))) activeId
    dsimp only
    refine tutorFinalize_locCount st _ e activeId student hrow
      ?_ ?_ ?_ ?_ hloc id
    · exact hpool0
    · exact hassign0
    · dsimp only
      have hrb : 1 ≤ rowCount (objGetD st.currentAssignments srcEmail [])
          activeId := by
        rw [hget]
        exact hposb
      have hf0 : rowCount
          ((objGetD st.currentAssignments srcEmail []).filter
            (fun (s : Student) => !(s.row_index == activeId)))
          activeId = 0 := rowCount_filter_self _ _
      rw [hf0] at hsum
      have hC : bucketsCount st.currentAssignments activeId ≤ 1 := by
        omega
      omega
    · intro id' hne
      refine ⟨rfl, rfl, ?_⟩
      dsimp only
      have hsum' := bucketsCount_objSet st.currentAssignments srcEmail
        ((objGetD st.currentAssignments srcEmail []).filter
          (fun (s : Student) => !(s.row_index == activeId))) id'
      have hf : rowCount
          ((objGetD st.currentAssignments srcEmail []).filter
            (fun (s : Student) => !(s.row_index == activeId))) id'
          = rowCount (objGetD st.currentAssignments srcEmail []) id' :=
        rowCount_filter_ne _ _ _ hne
      rw [hf] at hsum'
      omega

theorem handleDragEnd_locCount (nrts : List NRT) (st : AssignState)
    (over : Option OverId) (activeId dropIndex : Nat)
    (hWF : BucketsWF st) (hInv : ∀ id, locCount st id ≤ 1) :
    ∀ id, locCount (handleDragEnd nrts st over activeId dropIndex).2 id
      = locCount st id := by
  intro id
  cases over with
  | none => rfl
  | some ov =>
    cases ov with
    | pool =>
      unfold handleDragEnd
      cases hfb : findBucket st.assignments activeId with
      | some v =>
        obtain ⟨email, bucket, found⟩ := v
        dsimp only
        exact toPool_assignments_locCount st activeId _ email bucket found
          hWF.1 hInv hfb id
      | none =>
        cases hfc : findBucket st.currentAssignments activeId with
        | some v =>
          obtain ⟨email, bucket, found⟩ := v
          dsimp only
          exact toPool_current_locCount st activeId _ email bucket found
            hWF.2 hInv hfc id
        | none => rfl
    | card sid =>
      unfold handleDragEnd
      dsimp only
      cases hfind : st.students.find? (fun (s : Student) => s.row_index == sid) with
      | some s =>
        cases hfb : findBucket st.assignments activeId with
        | some v =>
          obtain ⟨email, bucket, found⟩ := v
          dsimp only
          exact toPool_assignments_locCount st activeId _ email bucket found
            hWF.1 hInv hfb id
        | none =>
          cases hfc : findBucket st.currentAssignments activeId with
          | some v =>
            obtain ⟨email, bucket, found⟩ := v
            dsimp only
            exact toPool_current_locCount st activeId _ email bucket found
              hWF.2 hInv hfc id
          | none => rfl
      | none => rfl
    | tutor e =>
      unfold handleDragEnd
      dsimp only
      simp only [Bool.false_eq_true, if_false]
      cases hsrc : findSource st activeId with
      | none => rfl
      | some p =>
        obtain ⟨src, student⟩ := p
        dsimp only
        cases hnrt : nrts.find? (fun (n : NRT) => n.email == e) with
        | none => rfl
        | some nrt =>
          dsimp only
          split
          · rfl
          · split
            · split
              · rfl
              · exact tutorMove_success_locCount nrts st e activeId src student
                  hWF hInv hsrc id
            · split
              · rfl
              · exact tutorMove_success_locCount nrts st e activeId src student
                  hWF hInv hsrc id

theorem handleAcceptAssignment_locCount (st : AssignState) (a : Assignment)
    (hInv : ∀ id, locCount st id ≤ 1)
    (hpool : 1 ≤ rowCount st.students a.student.row_index) :
    ∀ id, locCount (handleAcceptAssignment st a) id = locCount st id := by
  intro i
  unfold handleAcceptAssignment
  simp only [locCount]
  have hsum := bucketsCount_objSet st.assignments a.nrt.email
    (objGetD st.assignments a.nrt.email [] ++ [a.student]) i
  have happ := rowCount_append (objGetD st.assignments a.nrt.email [])
    [a.student] i
  by_cases hid : i = a.student.row_index
  · subst hid
    have hinv : rowCount st.students a.student.row_index +
        bucketsCount st.assignments a.student.row_index +
        bucketsCount st.currentAssignments a.student.row_index ≤ 1 :=
      hInv a.student.row_index
    have hble := rowCount_objGetD_le st.assignments a.nrt.email
      a.student.row_index
    have hone : rowCount [a.student] a.student.row_index = 1 := by
      simp [rowCount, List.countP_cons]
    have hfil : rowCount (st.students.filter
        (fun (s : Student) => !(s.row_index == a.student.row_index)))
        a.student.row_index = 0 :=
      rowCount_filter_self _ _
    rw [happ, hone] at hsum
    rw [hfil]
    omega
  · have hzero : rowCount [a.student] i = 0 := by
      have hb : (a.student.row_index == i) = false :=
        beq_eq_false_iff_ne.mpr (Ne.symm hid)
      simp [rowCount, List.countP_cons, hb]
    have hfil : rowCount (st.students.filter
        (fun (s : Student) => !(s.row_index == a.student.row_index))) i
        = rowCount st.students i := rowCount_filter_ne _ _ _ hid
    rw [happ, hzero] at hsum
    rw [hfil]
    omega

theorem handleRejectAssignment_locCount (st : AssignState) (a : Assignment) :
    ∀ id, locCount (handleRejectAssignment st a) id = locCount st id :=
  fun _ => rfl

theorem count_map_row (l : List Student) (id : Nat) :
    ((l.map (·.row_index)).count id) = rowCount l id := by
  induction l with
  | nil => rfl
  | cons s rest ih =>
    simp only [List.map_cons, List.count_cons, rowCount, List.countP_cons] at ih ⊢
    omega

theorem count_flatMap_buckets (m : List (String × List Student)) (id : Nat) :
    ((m.flatMap (fun b => b.2.map (·.row_index))).count id) = bucketsCount m id := by
  induction m with
  | nil => rfl
  | cons b rest ih =>
    rw [List.flatMap_cons, List.count_append, bucketsCount_cons, ih,
      count_map_row]

theorem count_allRows (st : AssignState) (id : Nat) :
    (allRows st).count id = locCount st id := by
  unfold allRows locCount
  rw [List.count_append, List.count_append, count_map_row,
    count_flatMap_buckets, count_flatMap_buckets]

theorem locCount_le_one_of_nodup (st : AssignState)
    (h : (allRows st).Nodup) : ∀ id, locCount st id ≤ 1 := by
  intro id
  rw [← count_allRows]
  exact List.nodup_iff_count_le_one.mp h id

theorem findSource_isSome_of_pos (st : AssignState) (aid : Nat)
    (h : 1 ≤ locCount st aid) : (findSource st aid).isSome = true := by
  cases hs : findSource st aid with
  | none =>
    have := findSource_none_locCount st aid hs
    omega
  | some p => rfl

/-! ### Evaluation lemmas for the tutor-drop branch -/

theorem dragEnd_tutor_ineligible (nrts : List NRT) (st : AssignState)
    (e : String) (aid di : Nat) (nrt : NRT)
    (hnrt : nrts.find? (fun (n : NRT) => n.email == e) = some nrt)
    (hsome : (findSource st aid).isSome = true)
    (hstatus : nrt.status ≠ "active") :
    handleDragEnd nrts st (some (OverId.tutor e)) aid di
      = (some MoveError.ineligible, st) := by
  unfold handleDragEnd
  dsimp only
  simp only [Bool.false_eq_true, if_false]
  cases hsrc : findSource st aid with
  | none =>
    rw [hsrc] at hsome
    simp at hsome
  | some p =>
    obtain ⟨src, student⟩ := p
    dsimp only
    rw [hnrt]
    dsimp only
    have hcond : (nrt.status != "active" ||
        nrt.status == "leaving, but keeping students" ||
        nrt.status == "active, but does not want additional students" ||
        nrt.status == "pending approval") = true := by
      simp only [Bool.or_eq_true, bne_iff_ne]
      exact Or.inl (Or.inl (Or.inl hstatus))
    rw [if_pos hcond]

theorem dragEnd_tutor_capacity (nrts : List NRT) (st : AssignState)
    (e : String) (aid di : Nat) (nrt : NRT)
    (hnrt : nrts.find? (fun (n : NRT) => n.email == e) = some nrt)
    (hsome : (findSource st aid).isSome = true)
    (hactive : nrt.status = "active")
    (hnoin : ((objGetD st.assignments e []).any
      (fun (s : Student) => s.row_index == aid)) = false)
    (hge : 3 ≤ (objGetD st.currentAssignments e []).length +
      (objGetD st.assignments e []).length) :
    handleDragEnd nrts st (some (OverId.tutor e)) aid di
      = (some MoveError.capacity, st) := by
  unfold handleDragEnd
  dsimp only
  simp only [Bool.false_eq_true, if_false]
  cases hsrc : findSource st aid with
  | none =>
    rw [hsrc] at hsome
    simp at hsome
  | some p =>
    obtain ⟨src, student⟩ := p
    dsimp only
    rw [hnrt]
    dsimp only
    have hcond : (nrt.status != "active" ||
        nrt.status == "leaving, but keeping students" ||
        nrt.status == "active, but does not want additional students" ||
        nrt.status == "pending approval") = false := by
      rw [hactive]
      rfl
    rw [hcond]
    simp only [Bool.false_eq_true, if_false]
    rw [hnoin]
    simp only [Bool.not_false, Bool.or_true, if_true]
    rw [if_pos (by omega)]

theorem dragEnd_tutor_readd_no_error (nrts : List NRT) (st : AssignState)
    (e : String) (aid di : Nat) (nrt : NRT) (srcEmail : String)
    (student : Student)
    (hnrt : nrts.find? (fun (n : NRT) => n.email == e) = some nrt)
    (hsrc : findSource st aid = some (SourceType.newBucket srcEmail, student))
    (hactive : nrt.status = "active")
    (hin : ((objGetD st.assignments e []).any
      (fun (s : Student) => s.row_index == aid)) = true)
    (hle : (objGetD st.currentAssignments e []).length +
      (objGetD st.assignments e []).length ≤ 3) :
    (handleDragEnd nrts st (some (OverId.tutor e)) aid di).1 = none := by
  unfold handleDragEnd
  dsimp only
  simp only [Bool.false_eq_true, if_false]
  rw [hsrc]
  dsimp only
  rw [hnrt]
  dsimp only
  have hcond : (nrt.status != "active" ||
      nrt.status == "leaving, but keeping students" ||
      nrt.status == "active, but does not want additional students" ||
      nrt.status == "pending approval") = false := by
    rw [hactive]
    rfl
  rw [hcond]
  simp only [Bool.false_eq_true, if_false]
  rw [hin]
  simp only [Bool.not_true, Bool.or_false]
  have hsrcne : (SourceType.newBucket srcEmail == SourceType.unassigned) = false := rfl
  rw [hsrcne]
  simp only [Bool.false_eq_true, if_false]
  rw [if_neg (by omega)]

/-! ### Claim C1 -/

/-- C1 (confirmed).  For a well-formed board state (unique JS object
keys) in which every student identity has exactly one location (the
`allRows` list of row indices has no duplicate), every Assignment State
operation preserves each identity's location count exactly: `handleDragEnd`
(drag move to a tutor and move to unassigned, for every drop target),
`handleAcceptAssignment`, and `handleRejectAssignment` leave
`locCount` — occurrences in the unassigned pool plus new-assignment
buckets plus current-assignment buckets — unchanged for every identity,
so no student is ever duplicated or lost.  For `handleAcceptAssignment`
the pair's student is required to be in the unassigned pool, which is an
invariant of its only call site: suggestions are generated from the pool
(`handleSuggestAssignments`) and the suggestion dialog is modal, so no
other operation can move a suggested student before the pair is
accepted. -/
theorem assignment_ops_preserve_one_location (st : AssignState)
    (hWF : BucketsWF st) (hnd : (allRows st).Nodup) :
    (∀ id, locCount st id ≤ 1) ∧
    (∀ (nrts : List NRT) (over : Option OverId) (activeId dropIndex id : Nat),
      locCount (handleDragEnd nrts st over activeId dropIndex).2 id
        = locCount st id) ∧
    (∀ a : Assignment, a.student.row_index ∈ st.students.map (·.row_index) →
      ∀ id, locCount (handleAcceptAssignment st a) id = locCount st id) ∧
    (∀ (a : Assignment) (id : Nat),
      locCount (handleRejectAssignment st a) id = locCount st id) := by
  have hInv := locCount_le_one_of_nodup st hnd
  refine ⟨hInv, ?_, ?_, ?_⟩
  · intro nrts over aid di id
    exact handleDragEnd_locCount nrts st over aid di hWF hInv id
  · intro a hmem id
    have hpool : 1 ≤ rowCount st.students a.student.row_index := by
      rcases List.mem_map.mp hmem with ⟨s, hs, heq⟩
      have := rowCount_pos_of_mem st.students s hs
      rwa [heq] at this
    exact handleAcceptAssignment_locCount st a hInv hpool id
  · intro a id
    exact handleRejectAssignment_locCount st a id

/-- C1 (witness).  The preservation property applied to the concrete
board `boardState` (two pooled students, one new and one current
assignment). -/
theorem assignment_ops_preserve_one_location_witness :
    (BucketsWF boardState ∧ (allRows boardState).Nodup) ∧
    ((∀ id, locCount boardState id ≤ 1) ∧
    (∀ (nrts : List NRT) (over : Option OverId) (activeId dropIndex id : Nat),
      locCount (handleDragEnd nrts boardState over activeId dropIndex).2 id
        = locCount boardState id) ∧
    (∀ a : Assignment,
      a.student.row_index ∈ boardState.students.map (·.row_index) →
      ∀ id, locCount (handleAcceptAssignment boardState a) id
        = locCount boardState id) ∧
    (∀ (a : Assignment) (id : Nat),
      locCount (handleRejectAssignment boardState a) id
        = locCount boardState id)) :=
  ⟨⟨⟨by decide, by decide⟩, by decide⟩,
    assignment_ops_preserve_one_location boardState
      ⟨by decide, by decide⟩ (by decide)⟩

/-! ### Claim C4 -/

/-- C4 (counterexample).  The claim says every move onto a tutor at
capacity (current + new = 3) reports an error.  In `capacityState`, tutor
`t1@x.com` has 2 current students and 1 new student (row 5), so it is at
3/3 — yet dragging student 5 (already in that tutor's new bucket) onto the
same tutor is accepted without any error, because the capacity check adds
no incoming student for a student already present in the target bucket. -/
theorem capacity_readd_not_rejected :
    (handleDragEnd [activeNRT] capacityState
      (some (OverId.tutor "t1@x.com")) 5 0).1 = none := by
  decide

/-- C4 (corrected).  For every well-formed board state satisfying the
one-location invariant, with the drop target resolving to tutor `nrt` and
the dragged identity present in the state: a move onto a non-`active`
tutor reports the ineligibility error and leaves the state unchanged; a
move onto an `active` tutor at capacity (current + new = 3) reports the
capacity error and leaves the state unchanged — *except* when the dragged
student is already in that tutor's new-assignment bucket, in which case
the move is accepted with no error as an idempotent re-add that preserves
every identity's location count. -/
theorem moveToTutor_reject_or_readd (nrts : List NRT) (st : AssignState)
    (e : String) (aid di : Nat) (nrt : NRT)
    (hWF : BucketsWF st) (hnd : (allRows st).Nodup)
    (hnrt : nrts.find? (fun (n : NRT) => n.email == e) = some nrt)
    (hloc : 1 ≤ locCount st aid) :
    (nrt.status ≠ "active" →
      handleDragEnd nrts st (some (OverId.tutor e)) aid di
        = (some MoveError.ineligible, st)) ∧
    (nrt.status = "active" →
      (objGetD st.currentAssignments e []).length +
        (objGetD st.assignments e []).length = 3 →
      (rowCount (objGetD st.assignments e []) aid = 0 →
        handleDragEnd nrts st (some (OverId.tutor e)) aid di
          = (some MoveError.capacity, st)) ∧
      (1 ≤ rowCount (objGetD st.assignments e []) aid →
        (handleDragEnd nrts st (some (OverId.tutor e)) aid di).1 = none ∧
        ∀ id, locCount (handleDragEnd nrts st (some (OverId.tutor e)) aid di).2 id
          = locCount st id)) := by
  have hInv := locCount_le_one_of_nodup st hnd
  have hsome := findSource_isSome_of_pos st aid hloc
  refine ⟨fun hstat =>
    dragEnd_tutor_ineligible nrts st e aid di nrt hnrt hsome hstat, ?_⟩
  intro hactive hcap
  constructor
  · intro hzero
    exact dragEnd_tutor_capacity nrts st e aid di nrt hnrt hsome hactive
      (any_row_eq_false _ _ hzero) (by omega)
  · intro hone
    have hbc : 1 ≤ bucketsCount st.assignments aid :=
      le_trans hone (rowCount_objGetD_le _ _ _)
    have hpool0 : rowCount st.students aid = 0 := by
      have h1 : rowCount st.students aid + bucketsCount st.assignments aid +
          bucketsCount st.currentAssignments aid ≤ 1 := hInv aid
      omega
    have hfind : st.students.find? (fun (s : Student) => s.row_index == aid)
        = none := find?_row_none _ _ hpool0
    have hfb : (findBucket st.assignments aid).isSome = true :=
      findBucket_isSome_of_pos _ _ hbc
    obtain ⟨v, hv⟩ := Option.isSome_iff_exists.mp hfb
    obtain ⟨email', bucket', student'⟩ := v
    have hsrc : findSource st aid
        = some (SourceType.newBucket email', student') := by
      unfold findSource
      rw [hfind, hv]
    refine ⟨dragEnd_tutor_readd_no_error nrts st e aid di nrt email' student'
      hnrt hsrc hactive (any_row_eq_true _ _ hone) (by omega), ?_⟩
    intro id
    exact handleDragEnd_locCount nrts st (some (OverId.tutor e)) aid di
      hWF hInv id

/-- C4 (witness).  The corrected rejection property applied to
`capacityState` with the pooled student 6 dragged onto the at-capacity
active tutor `t1@x.com` (and the concrete hypotheses checked). -/
theorem moveToTutor_reject_or_readd_witness :
    (BucketsWF capacityState ∧ (allRows capacityState).Nodup ∧
      [activeNRT].find? (fun (n : NRT) => n.email == "t1@x.com")
        = some activeNRT ∧
      1 ≤ locCount capacityState 6) ∧
    ((activeNRT.status ≠ "active" →
      handleDragEnd [activeNRT] capacityState
        (some (OverId.tutor "t1@x.com")) 6 0
        = (some MoveError.ineligible, capacityState)) ∧
    (activeNRT.status = "active" →
      (objGetD capacityState.currentAssignments "t1@x.com" []).length +
        (objGetD capacityState.assignments "t1@x.com" []).length = 3 →
      (rowCount (objGetD capacityState.assignments "t1@x.com" []) 6 = 0 →
        handleDragEnd [activeNRT] capacityState
          (some (OverId.tutor "t1@x.com")) 6 0
          = (some MoveError.capacity, capacityState)) ∧
      (1 ≤ rowCount (objGetD capacityState.assignments "t1@x.com" []) 6 →
        (handleDragEnd [activeNRT] capacityState
          (some (OverId.tutor "t1@x.com")) 6 0).1 = none ∧
        ∀ id, locCount (handleDragEnd [activeNRT] capacityState
          (some (OverId.tutor "t1@x.com")) 6 0).2 id
          = locCount capacityState id))) :=
  ⟨⟨⟨by decide, by decide⟩, by decide, by decide, by decide⟩,
    moveToTutor_reject_or_readd [activeNRT] capacityState "t1@x.com" 6 0
      activeNRT ⟨by decide, by decide⟩ (by decide) (by decide) (by decide)⟩

/-! ### Claim C10 -/

/-- C10 (confirmed).  If a student sits in tutor `e`'s
current-assignment bucket, the board satisfies the one-location invariant,
the tutor is `active`, and the tutor's current-plus-new total is 3, then
dragging that student back onto the same tutor is rejected with the
capacity error and the state is unchanged: the capacity check counts the
student both in the existing current total and (since the student is not
in the new bucket) as the incoming `+1`, giving 4 > 3. -/
theorem current_student_readd_rejected (nrts : List NRT) (st : AssignState)
    (e : String) (aid di : Nat) (nrt : NRT)
    (hnd : (allRows st).Nodup)
    (hnrt : nrts.find? (fun (n : NRT) => n.email == e) = some nrt)
    (hactive : nrt.status = "active")
    (hcur : 1 ≤ rowCount (objGetD st.currentAssignments e []) aid)
    (hcap : (objGetD st.currentAssignments e []).length +
      (objGetD st.assignments e []).length = 3) :
    handleDragEnd nrts st (some (OverId.tutor e)) aid di
      = (some MoveError.capacity, st) := by
  have hInv := locCount_le_one_of_nodup st hnd
  have hbc : 1 ≤ bucketsCount st.currentAssignments aid :=
    le_trans hcur (rowCount_objGetD_le _ _ _)
  have hloc : 1 ≤ locCount st aid := by
    simp only [locCount]
    omega
  have hsome := findSource_isSome_of_pos st aid hloc
  have hzero : rowCount (objGetD st.assignments e []) aid = 0 := by
    have h1 : rowCount st.students aid + bucketsCount st.assignments aid +
        bucketsCount st.currentAssignments aid ≤ 1 := hInv aid
    have h2 := rowCount_objGetD_le st.assignments e aid
    omega
  exact dragEnd_tutor_capacity nrts st e aid di nrt hnrt hsome hactive
    (any_row_eq_false _ _ hzero) (by omega)

/-- C10 (witness).  The property applied to `capacityState`: moving
current student 3 of the full tutor `t1@x.com` back onto the same tutor is
rejected with the capacity error. -/
theorem current_student_readd_rejected_witness :
    ((allRows capacityState).Nodup ∧
      [activeNRT].find? (fun (n : NRT) => n.email == "t1@x.com")
        = some activeNRT ∧
      activeNRT.status = "active" ∧
      1 ≤ rowCount (objGetD capacityState.currentAssignments "t1@x.com" []) 3 ∧
      (objGetD capacityState.currentAssignments "t1@x.com" []).length +
        (objGetD capacityState.assignments "t1@x.com" []).length = 3) ∧
    handleDragEnd [activeNRT] capacityState
      (some (OverId.tutor "t1@x.com")) 3 0
      = (some MoveError.capacity, capacityState) :=
  ⟨⟨by decide, by decide, by decide, by decide, by decide⟩,
    current_student_readd_rejected [activeNRT] capacityState "t1@x.com" 3 0
      activeNRT (by decide) (by decide) (by decide) (by decide) (by decide)⟩

/-! ### Claim C7 -/

/-- C7 (counterexample).  The claim says accepting a suggestion
enforces the same eligibility and capacity checks as a manual move.  With
the pending-approval tutor `pendingNRT` and the pooled student 1, a manual
drag is rejected with the ineligibility alert — but
`handleAcceptAssignment` on the same (student, tutor) pair performs no
check: it places the student in the tutor's new-assignment bucket and
removes the student from the pool. -/
theorem accept_skips_eligibility_checks :
    handleDragEnd [pendingNRT] pendingState
      (some (OverId.tutor "tp@x.com")) 1 0
      = (some MoveError.ineligible, pendingState) ∧
    ((objGetD (handleAcceptAssignment pendingState pendingPair).assignments
      "tp@x.com" []).map (·.row_index) = [1]) ∧
    (handleAcceptAssignment pendingState pendingPair).students = [] := by
  refine ⟨by decide, by decide, by decide⟩

/-- C7 (corrected).  `handleAcceptAssignment` does *not* perform the
manual move's checks: unconditionally — for every state and pair, with no
status or capacity test — it appends the pair's student to the tutor's
new-assignment bucket and removes the student from the unassigned pool,
touching no current-assignment bucket; `handleRejectAssignment` only
removes the pair from the suggestion list, leaving the pool and both
bucket maps unchanged. -/
theorem accept_reject_semantics (st : AssignState) (a : Assignment) :
    (a.student.row_index ∈ ((objGetD (handleAcceptAssignment st a).assignments
      a.nrt.email []).map (·.row_index))) ∧
    (handleAcceptAssignment st a).currentAssignments = st.currentAssignments ∧
    (∀ s ∈ (handleAcceptAssignment st a).students,
      s.row_index ≠ a.student.row_index) ∧
    (handleRejectAssignment st a).students = st.students ∧
    (handleRejectAssignment st a).assignments = st.assignments ∧
    (handleRejectAssignment st a).currentAssignments = st.currentAssignments := by
  refine ⟨?_, rfl, ?_, rfl, rfl, rfl⟩
  · unfold handleAcceptAssignment
    dsimp only
    rw [objGetD_objSet_self]
    simp
  · intro s hs heq
    unfold handleAcceptAssignment at hs
    dsimp only at hs
    rcases List.mem_filter.mp hs with ⟨_, hpred⟩
    simp [heq] at hpred

/-!
### Commit-sequence proofs (claims C5 and C6)
-/

/-- Shape of the calls issued by a delete loop: every call in the trace is
`mk` applied to some row index. -/
theorem runDeletes_calls (ok : Nat → Bool) (mk : Nat → ApiCall) (l : List Nat) :
    ∀ call ∈ (runDeletes ok mk l).1, ∃ i, call = mk i := by
  induction l with
  | nil => simp [runDeletes]
  | cons x rest ih =>
    intro call hcall
    simp only [runDeletes] at hcall
    split at hcall
    · simp only [List.mem_cons] at hcall
      rcases hcall with h | h
      · exact ⟨x, h⟩
      · exact ih call h
    · simp only [List.mem_cons, List.not_mem_nil, or_false] at hcall
      exact ⟨x, hcall⟩

/-- Shape of the calls issued by the status-update loop: re-fetches,
NRT deletions and NRT updates only. -/
theorem runNRTUpdates_calls (c : Collaborator) (l : List NRTUpdate) :
    ∀ call ∈ (runNRTUpdates c l).1,
      call = ApiCall.getAllNRTs ∨ (∃ i, call = ApiCall.deleteNRT i) ∨
      (∃ i, call = ApiCall.updateNRT i) := by
  induction l with
  | nil => simp [runNRTUpdates]
  | cons u rest ih =>
    intro call hcall
    simp only [runNRTUpdates] at hcall
    split at hcall
    · simp only [List.mem_cons, List.not_mem_nil, or_false] at hcall
      exact Or.inl hcall
    · split at hcall
      · simp only [List.mem_cons] at hcall
        rcases hcall with h | h
        · exact Or.inl h
        · exact ih call h
      · split at hcall
        · split at hcall
          · simp only [List.mem_cons] at hcall
            rcases hcall with h | h
            · exact Or.inl h
            rcases h with h | h
            · exact Or.inr (Or.inl ⟨u.row_index, h⟩)
            · exact ih call h
          · simp only [List.mem_cons, List.not_mem_nil, or_false] at hcall
            rcases hcall with h | h
            · exact Or.inl h
            · exact Or.inr (Or.inl ⟨u.row_index, h⟩)
        · split at hcall
          · simp only [List.mem_cons] at hcall
            rcases hcall with h | h
            · exact Or.inl h
            rcases h with h | h
            · exact Or.inr (Or.inr ⟨u.row_index, h⟩)
            · exact ih call h
          · simp only [List.mem_cons, List.not_mem_nil, or_false] at hcall
            rcases hcall with h | h
            · exact Or.inl h
            · exact Or.inr (Or.inr ⟨u.row_index, h⟩)

/-- Shape of the calls issued by an assignment loop: every call in the
trace is `mk` on a staged pair whose row index is NOT in the deletion
set — the skip guard filters deleted identities before any call. -/
theorem runAssigns_calls (result : Nat → String → CallResult)
    (mk : Nat → String → ApiCall) (deleted : List Nat)
    (l : List (Nat × String)) :
    ∀ call ∈ (runAssigns result mk deleted l).1,
      ∃ i em, call = mk i em ∧ deleted.contains i = false := by
  induction l with
  | nil => simp [runAssigns]
  | cons p rest ih =>
    obtain ⟨i0, e0⟩ := p
    intro call hcall
    simp only [runAssigns] at hcall
    by_cases hskip : deleted.contains i0 = true
    · rw [if_pos hskip] at hcall
      exact ih call hcall
    · have hskip2 : deleted.contains i0 = false := by simpa using hskip
      rw [if_neg hskip] at hcall
      cases hres : result i0 e0 with
      | failed =>
        rw [hres] at hcall
        simp only [List.mem_cons, List.not_mem_nil, or_false] at hcall
        exact ⟨i0, e0, hcall, hskip2⟩
      | ok =>
        rw [hres] at hcall
        simp only [List.mem_cons] at hcall
        rcases hcall with h | h
        · exact ⟨i0, e0, h, hskip2⟩
        · exact ih call h
      | notFound =>
        rw [hres] at hcall
        simp only [List.mem_cons] at hcall
        rcases hcall with h | h
        · exact ⟨i0, e0, h, hskip2⟩
        · exact ih call h

/-- A call in the trace of a sequential composition comes from one of the
two composed steps. -/
theorem seqSteps_mem (a b : List ApiCall × Bool) (call : ApiCall)
    (h : call ∈ (seqSteps a b).1) : call ∈ a.1 ∨ call ∈ b.1 := by
  simp only [seqSteps] at h
  split at h
  · exact List.mem_append.mp (by simpa using h)
  · exact Or.inl h

/-- A failed first step short-circuits the composition. -/
theorem seqSteps_fail (a b : List ApiCall × Bool) (h : a.2 = false) :
    seqSteps a b = a := by
  simp [seqSteps, h]

/-- The delete loop on a list whose prefix succeeds and whose next item is
rejected issues exactly the prefix deletes plus the failing delete, and
reports failure: there is no per-item catch. -/
theorem runDeletes_fail (ok : Nat → Bool) (mk : Nat → ApiCall)
    (x : Nat) (post : List Nat) (hx : ok x = false) :
    ∀ pre : List Nat, (∀ y ∈ pre, ok y = true) →
      runDeletes ok mk (pre ++ x :: post) = ((pre ++ [x]).map mk, false) := by
  intro pre
  induction pre with
  | nil =>
    intro _
    simp [runDeletes, hx]
  | cons y rest ih =>
    intro hpre
    have hy : ok y = true := hpre y (List.mem_cons_self y rest)
    have ih2 := ih (fun z hz => hpre z (List.mem_cons_of_mem y hz))
    simp [runDeletes, hy, ih2]

/-- C5 (counterexample).  The claim says each staged student deletion is
applied independently, a failure of one delete not blocking the others or
the later steps.  In the code all eight steps share one `try` block with
no per-item catch in step 1: with two staged deletions where the first
delete call is rejected, the commit reports failure and the second
student's delete call is never issued. -/
theorem delete_failure_blocks_rest :
    (processWorkflow twoDeleteBatch failFirstCollab).2 = false ∧
    ApiCall.deleteStudent 2 ∉ (processWorkflow twoDeleteBatch failFirstCollab).1 := by
  decide

/-- C5 (corrected).  Staged student deletions are NOT independent: if
every staged deletion before position `k` succeeds and the delete call for
the student at position `k` is rejected, the whole commit aborts — the
call trace is exactly the successful prefix deletes followed by the
failing delete call (no later deletion and no later step runs), and the
commit reports failure. -/
theorem processWorkflow_abort (wd : WorkflowData) (c : Collaborator)
    (pre post : List Student) (s : Student)
    (hsplit : wd.deletedStudents = pre ++ s :: post)
    (hpre : ∀ x ∈ pre, c.deleteStudentOk x.row_index = true)
    (hs : c.deleteStudentOk s.row_index = false) :
    processWorkflow wd c =
      ((pre ++ [s]).map (fun x => ApiCall.deleteStudent x.row_index), false) := by
  have h1 : runDeletes c.deleteStudentOk ApiCall.deleteStudent
      (wd.deletedStudents.map (fun x => x.row_index)) =
      ((pre ++ [s]).map (fun x => ApiCall.deleteStudent x.row_index), false) := by
    rw [hsplit]
    have h2 := runDeletes_fail c.deleteStudentOk ApiCall.deleteStudent
      s.row_index (post.map (fun x => x.row_index)) hs
      (pre.map (fun x => x.row_index))
      (by
        intro y hy
        obtain ⟨x, hx, rfl⟩ := List.mem_map.mp hy
        exact hpre x hx)
    simpa [List.map_append, List.map_map, Function.comp] using h2
  simp only [processWorkflow]
  rw [h1]
  simp [seqSteps]

/-- C5 (witness).  The abort property applied to `twoDeleteBatch` under
`failFirstCollab`: the prefix is empty, the rejected delete is row 1, and
the commit trace is exactly the single failing delete call. -/
theorem processWorkflow_abort_witness :
    twoDeleteBatch.deletedStudents =
      [] ++ ({ row_index := 1 } : Student) :: [{ row_index := 2 }] ∧
    processWorkflow twoDeleteBatch failFirstCollab =
      (([] ++ [({ row_index := 1 } : Student)]).map
        (fun (x : Student) => ApiCall.deleteStudent x.row_index), false) :=
  ⟨rfl, processWorkflow_abort twoDeleteBatch failFirstCollab
    [] [{ row_index := 2 }] { row_index := 1 } rfl
    (by intro x hx; cases hx) rfl⟩

/-- Any RT or NRT assignment call in a commit trace carries a row index
that is not in the staged student-deletion set: the only producers of
assignment-shaped calls are the two `runAssigns` loops, and both skip
deleted identities. -/
theorem processWorkflow_assign_skips_deleted (wd : WorkflowData)
    (c : Collaborator) (id : Nat) (e : String)
    (h : ApiCall.assignRT id e ∈ (processWorkflow wd c).1 ∨
         ApiCall.assignNRT id e ∈ (processWorkflow wd c).1) :
    (wd.deletedStudents.map (fun x => x.row_index)).contains id = false := by
  rcases h with h | h
  · simp only [processWorkflow] at h
    rcases seqSteps_mem _ _ _ h with h1 | h
    · obtain ⟨i, heq⟩ := runDeletes_calls _ _ _ _ h1
      simp at heq
    rcases seqSteps_mem _ _ _ h with h1 | h
    · split at h1 <;> simp at h1
    rcases seqSteps_mem _ _ _ h with h1 | h
    · obtain ⟨i, heq⟩ := runDeletes_calls _ _ _ _ h1
      simp at heq
    rcases seqSteps_mem _ _ _ h with h1 | h
    · rcases runNRTUpdates_calls c wd.updatedNRTs _ h1 with heq | ⟨i, heq⟩ | ⟨i, heq⟩ <;>
        simp at heq
    rcases seqSteps_mem _ _ _ h with h1 | h
    · split at h1 <;> simp at h1
    rcases seqSteps_mem _ _ _ h with h1 | h
    · obtain ⟨i, em, heq, hcon⟩ := runAssigns_calls _ _ _ _ _ h1
      injection heq with hi he
      subst hi
      exact hcon
    rcases seqSteps_mem _ _ _ h with h1 | h
    · obtain ⟨i, em, heq, hcon⟩ := runAssigns_calls _ _ _ _ _ h1
      simp at heq
    split at h <;> simp at h
  · simp only [processWorkflow] at h
    rcases seqSteps_mem _ _ _ h with h1 | h
    · obtain ⟨i, heq⟩ := runDeletes_calls _ _ _ _ h1
      simp at heq
    rcases seqSteps_mem _ _ _ h with h1 | h
    · split at h1 <;> simp at h1
    rcases seqSteps_mem _ _ _ h with h1 | h
    · obtain ⟨i, heq⟩ := runDeletes_calls _ _ _ _ h1
      simp at heq
    rcases seqSteps_mem _ _ _ h with h1 | h
    · rcases runNRTUpdates_calls c wd.updatedNRTs _ h1 with heq | ⟨i, heq⟩ | ⟨i, heq⟩ <;>
        simp at heq
    rcases seqSteps_mem _ _ _ h with h1 | h
    · split at h1 <;> simp at h1
    rcases seqSteps_mem _ _ _ h with h1 | h
    · obtain ⟨i, em, heq, hcon⟩ := runAssigns_calls _ _ _ _ _ h1
      simp at heq
    rcases seqSteps_mem _ _ _ h with h1 | h
    · obtain ⟨i, em, heq, hcon⟩ := runAssigns_calls _ _ _ _ _ h1
      injection heq with hi he
      subst hi
      exact hcon
    split at h <;> simp at h

/-- C6 (confirmed).  For every staged batch and collaborator, a student in
the staged deletion set never receives an assignment call during commit:
no `assignRT` and no `assignNRT` call with that student's row index, at
any email, appears in the commit's call trace. -/
theorem deleted_students_never_assigned (wd : WorkflowData)
    (c : Collaborator) (s : Student) (e : String)
    (hdel : s ∈ wd.deletedStudents) :
    ApiCall.assignRT s.row_index e ∉ (processWorkflow wd c).1 ∧
    ApiCall.assignNRT s.row_index e ∉ (processWorkflow wd c).1 := by
  have hmemmap : s.row_index ∈ wd.deletedStudents.map (fun x => x.row_index) :=
    List.mem_map_of_mem _ hdel
  have hcontains : (wd.deletedStudents.map (fun x => x.row_index)).contains
      s.row_index = true := by
    simpa [List.contains, List.elem_eq_mem] using hmemmap
  constructor
  · intro hmem
    have hcon := processWorkflow_assign_skips_deleted wd c s.row_index e
      (Or.inl hmem)
    rw [hcontains] at hcon
    cases hcon
  · intro hmem
    have hcon := processWorkflow_assign_skips_deleted wd c s.row_index e
      (Or.inr hmem)
    rw [hcontains] at hcon
    cases hcon

/-- C6 (witness).  The skip property applied to `deleteAndAssignBatch`
(which deletes student row 1 and stages RT and NRT assignments for it)
under the all-successful collaborator: neither staged assignment call for
row 1 appears in the commit trace. -/
theorem deleted_students_never_assigned_witness :
    ({ row_index := 1 } : Student) ∈ deleteAndAssignBatch.deletedStudents ∧
    ApiCall.assignRT 1 "rt@x.com" ∉ (processWorkflow deleteAndAssignBatch okCollab).1 ∧
    ApiCall.assignNRT 1 "t1@x.com" ∉ (processWorkflow deleteAndAssignBatch okCollab).1 := by
  have hdel : ({ row_index := 1 } : Student) ∈ deleteAndAssignBatch.deletedStudents :=
    List.mem_singleton.mpr rfl
  exact ⟨hdel,
    (deleted_students_never_assigned deleteAndAssignBatch okCollab
      { row_index := 1 } "rt@x.com" hdel).1,
    (deleted_students_never_assigned deleteAndAssignBatch okCollab
      { row_index := 1 } "t1@x.com" hdel).2⟩

end TutorApp
